import Mathlib

/-!
# TMDB collector: trailer resolution, enrichment and bulk persistence

A shallow embedding of `pkg/api/tmdb.go`, `pkg/database/db.go`,
`pkg/models/media.go` and `pkg/config/config.go`.

Conventions of the embedding:

* a Go `error` is modelled by its message, and a Go result pair
  `(value, error)` by a Lean pair whose second component is `none` for `nil`;
* a Go `int` that is only carried around (identifiers, page numbers, status
  codes) is an `Int`; no arithmetic is ever done on them by the program;
* a `float64` that is only carried around is represented by its bit pattern,
  a `Nat`; a `time.Time` is a `Nat` time stamp;
* a Go field whose name is a Lean keyword gets a trailing underscore
  (`Type_`, `Sort_`);
* the standard library and the network are parameters: the JSON decoders and
  `url.QueryEscape` are fields of `Runtime`, the HTTP client is a function
  from the requested URL to the outcome of the request.
-/

namespace TMDB

/-! ## Data model (`pkg/models/media.go`, `pkg/config/config.go`) -/

/-- The message of a Go `error` value. -/
abbrev GoError := String

/-- Embedding of `models.Movie`. -/
structure Movie where
  ID : Int
  Title : String
  Overview : String
  ReleaseDate : String
  PosterPath : String
  BackdropPath : String
  VoteAverage : Nat
  TrailerURL : String
  Popularity : Nat
  CreatedAt : Nat
  GenreIDs : List Int
  deriving DecidableEq, Repr

/-- Embedding of `models.TVShow`. -/
structure TVShow where
  ID : Int
  Name : String
  Overview : String
  FirstAirDate : String
  PosterPath : String
  BackdropPath : String
  VoteAverage : Nat
  TrailerURL : String
  Popularity : Nat
  CreatedAt : Nat
  GenreIDs : List Int
  deriving DecidableEq, Repr

/-- Embedding of `models.Genre`. -/
structure Genre where
  ID : Int
  Name : String
  deriving DecidableEq, Repr

/-- Embedding of `models.MovieGenre`. -/
structure MovieGenre where
  MovieID : Int
  GenreID : Int
  deriving DecidableEq, Repr

/-- Embedding of `models.TVShowGenre`. -/
structure TVShowGenre where
  TVShowID : Int
  GenreID : Int
  deriving DecidableEq, Repr

/-- Embedding of `config.SortConfig`. -/
structure SortConfig where
  Field : String
  Direction : String
  deriving DecidableEq, Repr

/-- The `TMDB` block of `config.Config`. -/
structure TMDBSettings where
  APIKey : String
  BaseURL : String
  ImageBaseURL : String
  Language : String
  deriving DecidableEq, Repr

/-- The `Sort` block of `config.Config`. -/
structure SortSettings where
  Movies : SortConfig
  TVShows : SortConfig
  deriving DecidableEq, Repr

/-- The `Fetch` block of `config.Config`. -/
structure FetchSettings where
  NumPages : Int
  IncludeAdult : Bool
  IncludeVideo : Bool
  MaxReleaseDate : String
  Sort_ : SortSettings
  deriving DecidableEq, Repr

/-- Embedding of `config.Config`. -/
structure Config where
  TMDB : TMDBSettings
  Fetch : FetchSettings
  deriving DecidableEq, Repr

/-! ## Wire types and the environment (`pkg/api/tmdb.go`, lines 15-41) -/

/-- Embedding of `TMDBResponse`; `Results` is the raw JSON text of the field. -/
structure TMDBResponse where
  Page : Int
  Results : String
  TotalPages : Int
  TotalResults : Int
  deriving DecidableEq, Repr

/-- One element of `VideoResponse.Results`. -/
structure Video where
  Key : String
  Site : String
  Type_ : String
  Official : Bool
  deriving DecidableEq, Repr

/-- Embedding of `VideoResponse`. -/
structure VideoResponse where
  Results : List Video
  deriving DecidableEq, Repr

/-- The anonymous struct decoded by `FetchMovieGenres` and `FetchTVShowGenres`. -/
structure GenreList where
  Genres : List Genre
  deriving DecidableEq, Repr

/-- What `c.client.Get(url)` followed by `ioutil.ReadAll(resp.Body)` can give:
the request fails, reading the body fails, or a status and a body are read. -/
inductive HttpOutcome where
  | getFailed (err : GoError)
  | readFailed (status : Int) (err : GoError)
  | response (status : Int) (body : String)
  deriving DecidableEq, Repr

/-- The standard-library functions the client calls: `json.Unmarshal` at each
of the types it is used at, and `url.QueryEscape`. -/
structure Runtime where
  unmarshalResponse : String → Except GoError TMDBResponse
  unmarshalMovies : String → Except GoError (List Movie)
  unmarshalShows : String → Except GoError (List TVShow)
  unmarshalVideos : String → Except GoError VideoResponse
  unmarshalGenres : String → Except GoError GenreList
  queryEscape : String → String

/-- The HTTP client seen by one call: the outcome of a GET of each URL. -/
abbrev Client := String → HttpOutcome

/-- The constant `http.StatusOK`. -/
def StatusOK : Int := 200

/-- The error built by `fmt.Errorf("erro na API (status %d): %s", ...)`. -/
def apiError (status : Int) (body : String) : GoError :=
  "erro na API (status " ++ toString status ++ "): " ++ body

/-! ## Trailer resolver (`GetMovieTrailer`, `GetTVShowTrailer`) -/

/-- The URL built by `fmt.Sprintf("https://www.youtube.com/watch?v=%s", video.Key)`. -/
def watchURL (key : String) : String :=
  "https://www.youtube.com/watch?v=" ++ key

/-- Condition of the first loop (lines 269 and 337). -/
def isOfficialTrailer (video : Video) : Bool :=
  video.Site == "YouTube" && video.Type_ == "Trailer" && video.Official

/-- Condition of the second loop (lines 275 and 342). -/
def isTrailer (video : Video) : Bool :=
  video.Site == "YouTube" && video.Type_ == "Trailer"

/-- Condition of the third loop (lines 281 and 347). -/
def isTeaser (video : Video) : Bool :=
  video.Site == "YouTube" && video.Type_ == "Teaser"

/-- Condition of the fourth loop (lines 287 and 352). -/
def isClip (video : Video) : Bool :=
  video.Site == "YouTube" && video.Type_ == "Clip"

/-- The four consecutive `for _, video := range videos.Results` loops of the
`getTrailer` closures (lines 268-291 and 336-356): each returns at the first
video meeting its condition; after the last loop the result is `""`. -/
def selectTrailer (videos : List Video) : String :=
  match videos.find? isOfficialTrailer with
  | some video => watchURL video.Key
  | none =>
    match videos.find? isTrailer with
    | some video => watchURL video.Key
    | none =>
      match videos.find? isTeaser with
      | some video => watchURL video.Key
      | none =>
        match videos.find? isClip with
        | some video => watchURL video.Key
        | none => ""

/-- The URL requested by the `getTrailer` closure of `GetMovieTrailer`. -/
def movieVideosURL (cfg : Config) (movieID : Int) (lang : String) : String :=
  cfg.TMDB.BaseURL ++ "/movie/" ++ toString movieID ++ "/videos?api_key="
    ++ cfg.TMDB.APIKey ++ "&language=" ++ lang

/-- The URL requested by the `getTrailer` closure of `GetTVShowTrailer`. -/
def showVideosURL (cfg : Config) (showID : Int) (lang : String) : String :=
  cfg.TMDB.BaseURL ++ "/tv/" ++ toString showID ++ "/videos?api_key="
    ++ cfg.TMDB.APIKey ++ "&language=" ++ lang

/-- The part of a `getTrailer` closure after the request: status check,
decoding, selection (lines 248-291 and 316-356). -/
def trailerOfOutcome (rt : Runtime) : HttpOutcome → String × Option GoError
  | .getFailed err => ("", some err)
  | .readFailed _ err => ("", some err)
  | .response status body =>
    if status ≠ StatusOK then ("", some (apiError status body))
    else
      match rt.unmarshalVideos body with
      | .error err => ("", some err)
      | .ok videos => (selectTrailer videos.Results, none)

/-- The closure `getTrailer` of `GetMovieTrailer` (lines 241-292). -/
def movieGetTrailer (cfg : Config) (rt : Runtime) (client : Client) (movieID : Int)
    (lang : String) : String × Option GoError :=
  trailerOfOutcome rt (client (movieVideosURL cfg movieID lang))

/-- The closure `getTrailer` of `GetTVShowTrailer` (lines 309-357). -/
def showGetTrailer (cfg : Config) (rt : Runtime) (client : Client) (showID : Int)
    (lang : String) : String × Option GoError :=
  trailerOfOutcome rt (client (showVideosURL cfg showID lang))

/-- The result of a trailer resolution together with what it did on the way:
the URLs it requested, in order, and the lines it logged. -/
structure Resolution where
  trailer : String
  err : Option GoError
  requests : List String
  logged : List String
  deriving DecidableEq, Repr

/-- Embedding of `GetMovieTrailer` (lines 294-305). -/
def GetMovieTrailer (cfg : Config) (rt : Runtime) (client : Client) (movieID : Int) :
    Resolution :=
  let first := movieGetTrailer cfg rt client movieID cfg.TMDB.Language
  let asked := [movieVideosURL cfg movieID cfg.TMDB.Language]
  if first.1 ≠ "" then
    { trailer := first.1, err := none, requests := asked, logged := [] }
  else if cfg.TMDB.Language ≠ "en-US" then
    let second := movieGetTrailer cfg rt client movieID "en-US"
    let asked2 := asked ++ [movieVideosURL cfg movieID "en-US"]
    if second.1 ≠ "" then
      { trailer := second.1, err := none, requests := asked2, logged := [] }
    else
      { trailer := "", err := second.2, requests := asked2,
        logged := ["Nenhum trailer encontrado para o filme " ++ toString movieID] }
  else
    { trailer := "", err := first.2, requests := asked,
      logged := ["Nenhum trailer encontrado para o filme " ++ toString movieID] }

/-- Embedding of `GetTVShowTrailer` (lines 359-370). -/
def GetTVShowTrailer (cfg : Config) (rt : Runtime) (client : Client) (showID : Int) :
    Resolution :=
  let first := showGetTrailer cfg rt client showID cfg.TMDB.Language
  let asked := [showVideosURL cfg showID cfg.TMDB.Language]
  if first.1 ≠ "" then
    { trailer := first.1, err := none, requests := asked, logged := [] }
  else if cfg.TMDB.Language ≠ "en-US" then
    let second := showGetTrailer cfg rt client showID "en-US"
    let asked2 := asked ++ [showVideosURL cfg showID "en-US"]
    if second.1 ≠ "" then
      { trailer := second.1, err := none, requests := asked2, logged := [] }
    else
      { trailer := "", err := second.2, requests := asked2,
        logged := ["Nenhum trailer encontrado para a série " ++ toString showID] }
  else
    { trailer := "", err := first.2, requests := asked,
      logged := ["Nenhum trailer encontrado para a série " ++ toString showID] }

/-! ## The selection policy as the specification words it -/

/-- The specification's tiers, in priority order: (1) YouTube, Trailer,
official; (2) YouTube, Trailer; (3) YouTube, Teaser; (4) YouTube, Clip. -/
def specTiers : List (Video → Bool) :=
  [ fun v => decide (v.Site = "YouTube" ∧ v.Type_ = "Trailer" ∧ v.Official = true),
    fun v => decide (v.Site = "YouTube" ∧ v.Type_ = "Trailer"),
    fun v => decide (v.Site = "YouTube" ∧ v.Type_ = "Teaser"),
    fun v => decide (v.Site = "YouTube" ∧ v.Type_ = "Clip") ]

/-- The specification's selection: the URL of the first video, in list order,
of the highest-priority tier that is not empty, and `""` when all are empty. -/
def specSelect (videos : List Video) : String :=
  match (specTiers.map (fun tier => videos.filter tier)).find? (fun l => !l.isEmpty) with
  | some (v :: _) => watchURL v.Key
  | _ => ""

/-- A video that some tier of the policy accepts. -/
def qualifies (v : Video) : Prop :=
  v.Site = "YouTube" ∧ (v.Type_ = "Trailer" ∨ v.Type_ = "Teaser" ∨ v.Type_ = "Clip")

/-! ## Catalog fetcher: search and genre lists (`pkg/api/tmdb.go`, lines 43-115, 373-423) -/

/-- The URL built by `SearchMovies` (line 44). -/
def searchMoviesURL (cfg : Config) (rt : Runtime) (query : String) (page : Int) : String :=
  cfg.TMDB.BaseURL ++ "/search/movie?api_key=" ++ cfg.TMDB.APIKey ++ "&query="
    ++ rt.queryEscape query ++ "&page=" ++ toString page

/-- The URL built by `SearchTVShows` (line 81). -/
def searchTVShowsURL (cfg : Config) (rt : Runtime) (query : String) (page : Int) : String :=
  cfg.TMDB.BaseURL ++ "/search/tv?api_key=" ++ cfg.TMDB.APIKey ++ "&query="
    ++ rt.queryEscape query ++ "&page=" ++ toString page

/-- The URL built by `DiscoverMovies` (lines 118-127). -/
def discoverMoviesURL (cfg : Config) (page : Int) : String :=
  cfg.TMDB.BaseURL ++ "/discover/movie?api_key=" ++ cfg.TMDB.APIKey ++ "&page="
    ++ toString page ++ "&sort_by=" ++ cfg.Fetch.Sort_.Movies.Field ++ "."
    ++ cfg.Fetch.Sort_.Movies.Direction ++ "&include_adult=" ++ toString cfg.Fetch.IncludeAdult
    ++ "&include_video=" ++ toString cfg.Fetch.IncludeVideo ++ "&language="
    ++ cfg.TMDB.Language ++ "&release_date.lte=" ++ cfg.Fetch.MaxReleaseDate

/-- The URL built by `DiscoverTVShows` (lines 180-188). -/
def discoverTVShowsURL (cfg : Config) (page : Int) : String :=
  cfg.TMDB.BaseURL ++ "/discover/tv?api_key=" ++ cfg.TMDB.APIKey ++ "&page="
    ++ toString page ++ "&sort_by=" ++ cfg.Fetch.Sort_.TVShows.Field ++ "."
    ++ cfg.Fetch.Sort_.TVShows.Direction ++ "&include_adult=" ++ toString cfg.Fetch.IncludeAdult
    ++ "&language=" ++ cfg.TMDB.Language ++ "&first_air_date.lte=" ++ cfg.Fetch.MaxReleaseDate

/-- The URL built by `FetchMovieGenres` (lines 374-377). -/
def movieGenresURL (cfg : Config) : String :=
  cfg.TMDB.BaseURL ++ "/genre/movie/list?api_key=" ++ cfg.TMDB.APIKey ++ "&language="
    ++ cfg.TMDB.Language

/-- The URL built by `FetchTVShowGenres` (lines 400-403). -/
def showGenresURL (cfg : Config) : String :=
  cfg.TMDB.BaseURL ++ "/genre/tv/list?api_key=" ++ cfg.TMDB.APIKey ++ "&language="
    ++ cfg.TMDB.Language

/-- Embedding of `SearchMovies` (lines 43-78). -/
def SearchMovies (cfg : Config) (rt : Runtime) (client : Client) (query : String)
    (page : Int) : List Movie × Option GoError :=
  match client (searchMoviesURL cfg rt query page) with
  | .getFailed err => ([], some ("erro na requisição: " ++ err))
  | .readFailed _ err => ([], some ("erro ao ler resposta: " ++ err))
  | .response status body =>
    if status ≠ StatusOK then ([], some (apiError status body))
    else
      match rt.unmarshalResponse body with
      | .error err => ([], some ("erro ao decodificar resposta: " ++ err))
      | .ok response =>
        match rt.unmarshalMovies response.Results with
        | .error err => ([], some ("erro ao decodificar filmes: " ++ err))
        | .ok movies =>
          (movies.map (fun m =>
              if m.PosterPath ≠ "" then
                { m with PosterPath := cfg.TMDB.ImageBaseURL ++ m.PosterPath }
              else m),
            none)

/-- Embedding of `SearchTVShows` (lines 80-115). -/
def SearchTVShows (cfg : Config) (rt : Runtime) (client : Client) (query : String)
    (page : Int) : List TVShow × Option GoError :=
  match client (searchTVShowsURL cfg rt query page) with
  | .getFailed err => ([], some ("erro na requisição: " ++ err))
  | .readFailed _ err => ([], some ("erro ao ler resposta: " ++ err))
  | .response status body =>
    if status ≠ StatusOK then ([], some (apiError status body))
    else
      match rt.unmarshalResponse body with
      | .error err => ([], some ("erro ao decodificar resposta: " ++ err))
      | .ok response =>
        match rt.unmarshalShows response.Results with
        | .error err => ([], some ("erro ao decodificar séries: " ++ err))
        | .ok shows =>
          (shows.map (fun s =>
              if s.PosterPath ≠ "" then
                { s with PosterPath := cfg.TMDB.ImageBaseURL ++ s.PosterPath }
              else s),
            none)

/-- Embedding of `FetchMovieGenres` (lines 373-397). -/
def FetchMovieGenres (cfg : Config) (rt : Runtime) (client : Client) :
    List Genre × Option GoError :=
  match client (movieGenresURL cfg) with
  | .getFailed err => ([], some ("erro na requisição de gêneros de filmes: " ++ err))
  | .readFailed _ err => ([], some ("erro ao ler resposta: " ++ err))
  | .response status body =>
    if status ≠ StatusOK then ([], some (apiError status body))
    else
      match rt.unmarshalGenres body with
      | .error err => ([], some ("erro ao decodificar gêneros: " ++ err))
      | .ok result => (result.Genres, none)

/-- Embedding of `FetchTVShowGenres` (lines 399-423). -/
def FetchTVShowGenres (cfg : Config) (rt : Runtime) (client : Client) :
    List Genre × Option GoError :=
  match client (showGenresURL cfg) with
  | .getFailed err => ([], some ("erro na requisição de gêneros de séries: " ++ err))
  | .readFailed _ err => ([], some ("erro ao ler resposta: " ++ err))
  | .response status body =>
    if status ≠ StatusOK then ([], some (apiError status body))
    else
      match rt.unmarshalGenres body with
      | .error err => ([], some ("erro ao decodificar gêneros: " ++ err))
      | .ok result => (result.Genres, none)

/-! ## Enrichment orchestrator (`pkg/api/tmdb.go`, lines 154-176 and 215-237)

The loop over the decoded page starts one goroutine per entry; the goroutines
and the main goroutine share the slice, the buffered channel `sem` of capacity
10 and the `WaitGroup`. The embedding is a transition system whose actions are
the synchronisation points of that code; an execution is a list of actions. -/

/-- The per-entry code of the loop body, for an entry type `α`: the rewriting of
the image paths done by the main goroutine, the trailer resolution called by
the goroutine started for index `i`, and the assignment `m.TrailerURL = trailer`. -/
structure EnrichOps (α : Type) where
  decorate : α → α
  resolve : Nat → α → Resolution
  store : α → String → α

/-- Where a started goroutine stands: before `sem <- struct{}{}`; holding a slot
with its trailer resolution in flight; resolution returned and its result
handled, before `<-sem`; slot given back, before the deferred `wg.Done()`;
finished. -/
inductive Pc where
  | blocked
  | resolving
  | resolved
  | released
  | finished
  deriving DecidableEq, Repr

/-- The shared state of one enrichment: the slice, the loop index of the main
goroutine, the goroutines started so far, the number of elements buffered in
`sem`, the counter of `wg`, and whether `wg.Wait()` has returned. -/
structure Enrich (α : Type) where
  entries : List α
  next : Nat
  pcs : List Pc
  sem : Nat
  wg : Nat
  returned : Bool

/-- The actions of the transition system. `spawn` is one iteration of the
loop of the main goroutine; `acquire`, `complete`, `release` and `done` are the
steps of the goroutine started for the given index; `wait` is the return of
`wg.Wait()`. -/
inductive Action where
  | spawn
  | acquire (i : Nat)
  | complete (i : Nat)
  | release (i : Nat)
  | done (i : Nat)
  | wait
  deriving DecidableEq, Repr

/-- The capacity of the channel made by `make(chan struct{}, 10)`. -/
def semCap : Nat := 10

/-- The body of `if trailer, err := c.GetMovieTrailer(m.ID); err == nil { m.TrailerURL = trailer }`
(lines 168-170 and 229-231) run by the goroutine of index `i` on its entry. -/
def applyResolution {α : Type} (ops : EnrichOps α) (i : Nat) (e : α) : α :=
  if (ops.resolve i e).err = none then ops.store e (ops.resolve i e).trailer else e

/-- One action from a state, `none` when the action cannot be taken there (the
goroutine is not at that point, the channel is full on a send or empty on a
receive, the loop is over, or the counter of `wg` is not zero on `wait`). -/
def step {α : Type} (ops : EnrichOps α) (s : Enrich α) : Action → Option (Enrich α)
  | .spawn =>
    if s.returned then none
    else
      match s.entries[s.next]? with
      | none => none
      | some e =>
        some { s with entries := s.entries.set s.next (ops.decorate e),
                      next := s.next + 1,
                      pcs := s.pcs ++ [Pc.blocked],
                      wg := s.wg + 1 }
  | .acquire i =>
    if s.pcs[i]? = some Pc.blocked ∧ s.sem < semCap then
      some { s with pcs := s.pcs.set i Pc.resolving, sem := s.sem + 1 }
    else none
  | .complete i =>
    if s.pcs[i]? = some Pc.resolving then
      match s.entries[i]? with
      | none => none
      | some e =>
        some { s with entries := s.entries.set i (applyResolution ops i e),
                      pcs := s.pcs.set i Pc.resolved }
    else none
  | .release i =>
    if s.pcs[i]? = some Pc.resolved ∧ 0 < s.sem then
      some { s with pcs := s.pcs.set i Pc.released, sem := s.sem - 1 }
    else none
  | .done i =>
    if s.pcs[i]? = some Pc.released ∧ 0 < s.wg then
      some { s with pcs := s.pcs.set i Pc.finished, wg := s.wg - 1 }
    else none
  | .wait =>
    if s.next = s.entries.length ∧ s.wg = 0 ∧ s.returned = false then
      some { s with returned := true }
    else none

/-- The state reached by a list of actions, `none` when one cannot be taken. -/
def run {α : Type} (ops : EnrichOps α) : List Action → Enrich α → Option (Enrich α)
  | [], s => some s
  | a :: rest, s =>
    match step ops s a with
    | none => none
    | some s2 => run ops rest s2

/-- The state at `var wg sync.WaitGroup; sem := make(chan struct{}, 10)`. -/
def start {α : Type} (entries : List α) : Enrich α :=
  { entries := entries, next := 0, pcs := [], sem := 0, wg := 0, returned := false }

/-- The slice returned by an execution: `none` unless the actions can all be
taken and end after the return of `wg.Wait()`. -/
def enrich {α : Type} (ops : EnrichOps α) (entries : List α) (sched : List Action) :
    Option (List α) :=
  match run ops sched (start entries) with
  | none => none
  | some s => if s.returned then some s.entries else none

/-- The number of trailer resolutions in flight in a state. -/
def inFlight {α : Type} (s : Enrich α) : Nat :=
  s.pcs.count Pc.resolving

/-- The per-entry code of `DiscoverMovies` (lines 158-172); `clients i` is the
HTTP client as seen by the goroutine started for index `i`. -/
def movieOps (cfg : Config) (rt : Runtime) (clients : Nat → Client) : EnrichOps Movie :=
  { decorate := fun m =>
      let m1 := if m.PosterPath ≠ "" then
          { m with PosterPath := cfg.TMDB.ImageBaseURL ++ m.PosterPath } else m
      if m1.BackdropPath ≠ "" then
        { m1 with BackdropPath := cfg.TMDB.ImageBaseURL ++ m1.BackdropPath } else m1,
    resolve := fun i m => GetMovieTrailer cfg rt (clients i) m.ID,
    store := fun m trailer => { m with TrailerURL := trailer } }

/-- The per-entry code of `DiscoverTVShows` (lines 219-233). -/
def showOps (cfg : Config) (rt : Runtime) (clients : Nat → Client) : EnrichOps TVShow :=
  { decorate := fun s =>
      let s1 := if s.PosterPath ≠ "" then
          { s with PosterPath := cfg.TMDB.ImageBaseURL ++ s.PosterPath } else s
      if s1.BackdropPath ≠ "" then
        { s1 with BackdropPath := cfg.TMDB.ImageBaseURL ++ s1.BackdropPath } else s1,
    resolve := fun i s => GetTVShowTrailer cfg rt (clients i) s.ID,
    store := fun s trailer => { s with TrailerURL := trailer } }

/-- Embedding of `DiscoverMovies` (lines 117-177). `client` answers the
discovery request, `clients i` the requests of the goroutine of index `i`, and
`sched` is the interleaving of the enrichment; the result is `none` when
`sched` is not a complete execution of the enrichment. -/
def DiscoverMovies (cfg : Config) (rt : Runtime) (client : Client) (clients : Nat → Client)
    (page : Int) (sched : List Action) : Option (List Movie × Option GoError) :=
  match client (discoverMoviesURL cfg page) with
  | .getFailed err => some ([], some ("erro na requisição: " ++ err))
  | .readFailed _ err => some ([], some ("erro ao ler resposta: " ++ err))
  | .response status body =>
    if status ≠ StatusOK then some ([], some (apiError status body))
    else
      match rt.unmarshalResponse body with
      | .error err => some ([], some ("erro ao decodificar resposta: " ++ err))
      | .ok response =>
        match rt.unmarshalMovies response.Results with
        | .error err => some ([], some ("erro ao decodificar filmes: " ++ err))
        | .ok movies =>
          match enrich (movieOps cfg rt clients) movies sched with
          | none => none
          | some enriched => some (enriched, none)

/-- Embedding of `DiscoverTVShows` (lines 179-238), with the parameters of
`DiscoverMovies`. -/
def DiscoverTVShows (cfg : Config) (rt : Runtime) (client : Client) (clients : Nat → Client)
    (page : Int) (sched : List Action) : Option (List TVShow × Option GoError) :=
  match client (discoverTVShowsURL cfg page) with
  | .getFailed err => some ([], some ("erro na requisição: " ++ err))
  | .readFailed _ err => some ([], some ("erro ao ler resposta: " ++ err))
  | .response status body =>
    if status ≠ StatusOK then some ([], some (apiError status body))
    else
      match rt.unmarshalResponse body with
      | .error err => some ([], some ("erro ao decodificar resposta: " ++ err))
      | .ok response =>
        match rt.unmarshalShows response.Results with
        | .error err => some ([], some ("erro ao decodificar séries: " ++ err))
        | .ok shows =>
          match enrich (showOps cfg rt clients) shows sched with
          | none => none
          | some enriched => some (enriched, none)

/-- The schedule that runs the goroutines one after the other: for each index
from `k` on, the loop iteration followed by the four steps of its goroutine. -/
def sequentialFrom : Nat → Nat → List Action
  | _, 0 => [Action.wait]
  | k, n + 1 =>
    Action.spawn :: Action.acquire k :: Action.complete k :: Action.release k
      :: Action.done k :: sequentialFrom (k + 1) n

/-- The sequential schedule of a page of `n` entries. -/
def sequential (n : Nat) : List Action :=
  sequentialFrom 0 n

/-! ## Bulk persistence writer (`pkg/database/db.go`) -/

/-- A row of the table `movies`, with the columns named by the statement of
`SaveMoviesBulk` (lines 57-59). -/
structure MovieRow where
  id : Int
  title : String
  overview : String
  release_date : String
  poster_path : String
  backdrop_path : String
  vote_average : Nat
  trailer_url : String
  popularity : Nat
  created_at : Nat
  deriving DecidableEq, Repr

/-- A row of the table `tv_shows`, with the columns named by the statement of
`SaveTVShowsBulk` (lines 85-87). -/
structure ShowRow where
  id : Int
  name : String
  overview : String
  first_air_date : String
  poster_path : String
  backdrop_path : String
  vote_average : Nat
  trailer_url : String
  popularity : Nat
  created_at : Nat
  deriving DecidableEq, Repr

/-- The contents of the five tables behind the handle `d.db`. The rows of
`genres`, `movie_genres` and `tvshow_genres` have the columns of `Genre`,
`MovieGenre` and `TVShowGenre`. -/
structure Database where
  movies : List MovieRow
  tv_shows : List ShowRow
  genres : List Genre
  movie_genres : List MovieGenre
  tvshow_genres : List TVShowGenre
  deriving DecidableEq, Repr

/-- The failures the SQL driver can report during one call: of `d.db.Begin()`,
of `tx.Prepare`, of the `stmt.Exec` number `n` (from 0) given the contents of
the table inside the transaction and the row, and of `tx.Commit()`. -/
structure SqlFaults (ρ : Type) where
  beginErr : Option GoError
  prepareErr : Option GoError
  execErr : Nat → List ρ → ρ → Option GoError
  commitErr : Option GoError

/-- Modelled from the spec: the declarations of the tables are not in the
repository; the specification says each table is addressed by upsert on its
primary or composite key, a row being inserted if its key is new and fully
replacing the existing row with the same key otherwise. This is the effect of
one successful `INSERT OR REPLACE` on a table with key `key`. -/
def insertOrReplace {ρ κ : Type} [DecidableEq κ] (key : ρ → κ) (table : List ρ) (row : ρ) :
    List ρ :=
  table.filter (fun r => key r ≠ key row) ++ [row]

/-- A transaction on one table: the contents committed before it began and the
contents seen inside it. -/
structure Tx (ρ : Type) where
  committed : List ρ
  work : List ρ

/-- The table after `tx.Rollback()`: the work of the transaction is discarded. -/
def Tx.rollback {ρ : Type} (tx : Tx ρ) : List ρ :=
  tx.committed

/-- The table after a successful `tx.Commit()`. -/
def Tx.commit {ρ : Type} (tx : Tx ρ) : List ρ :=
  tx.work

/-- The loop `for _, x := range xs` of the bulk writers: each row is written by
`stmt.Exec`; at the first failure the loop is left with the error and the
transaction as it stands. `n` counts the calls of `stmt.Exec` made so far. -/
def execAll {ρ κ : Type} [DecidableEq κ] (key : ρ → κ) (faults : SqlFaults ρ) :
    Nat → Tx ρ → List ρ → Except (GoError × Tx ρ) (Tx ρ)
  | _, tx, [] => .ok tx
  | n, tx, row :: rest =>
    match faults.execErr n tx.work row with
    | some err => .error (err, tx)
    | none => execAll key faults (n + 1) { tx with work := insertOrReplace key tx.work row } rest

/-- The skeleton shared by `SaveMoviesBulk`, `SaveTVShowsBulk`, `SaveGenres`,
`SaveMovieGenresBulk` and `SaveTVShowGenresBulk`: `Begin`, `Prepare` (rollback
and return on error), the loop (rollback and return on the first error),
`Commit`. A failed `Commit` leaves the committed contents as they were. The
result is the contents of the table after the call and the returned error. -/
def bulkWrite {ρ κ : Type} [DecidableEq κ] (key : ρ → κ) (faults : SqlFaults ρ)
    (table : List ρ) (rows : List ρ) : List ρ × Option GoError :=
  match faults.beginErr with
  | some err => (table, some err)
  | none =>
    let tx : Tx ρ := { committed := table, work := table }
    match faults.prepareErr with
    | some err => (tx.rollback, some err)
    | none =>
      match execAll key faults 0 tx rows with
      | .error (err, tx2) => (tx2.rollback, some err)
      | .ok tx2 =>
        match faults.commitErr with
        | some err => (tx2.committed, some err)
        | none => (tx2.commit, none)

/-- The arguments of `stmt.Exec` in `SaveMoviesBulk` (lines 68-71), after
`movie.CreatedAt = now`. -/
def movieRow (now : Nat) (movie : Movie) : MovieRow :=
  { id := movie.ID, title := movie.Title, overview := movie.Overview,
    release_date := movie.ReleaseDate, poster_path := movie.PosterPath,
    backdrop_path := movie.BackdropPath, vote_average := movie.VoteAverage,
    trailer_url := movie.TrailerURL, popularity := movie.Popularity, created_at := now }

/-- The arguments of `stmt.Exec` in `SaveTVShowsBulk` (lines 96-99), after
`show.CreatedAt = now`. -/
def showRow (now : Nat) (tvshow : TVShow) : ShowRow :=
  { id := tvshow.ID, name := tvshow.Name, overview := tvshow.Overview,
    first_air_date := tvshow.FirstAirDate, poster_path := tvshow.PosterPath,
    backdrop_path := tvshow.BackdropPath, vote_average := tvshow.VoteAverage,
    trailer_url := tvshow.TrailerURL, popularity := tvshow.Popularity, created_at := now }

/-- Embedding of `SaveMoviesBulk` (lines 52-78); `now` is the value of
`time.Now()`. -/
def SaveMoviesBulk (faults : SqlFaults MovieRow) (now : Nat) (db : Database)
    (movies : List Movie) : Database × Option GoError :=
  let r := bulkWrite MovieRow.id faults db.movies (movies.map (movieRow now))
  ({ db with movies := r.1 }, r.2)

/-- Embedding of `SaveTVShowsBulk` (lines 80-106). -/
def SaveTVShowsBulk (faults : SqlFaults ShowRow) (now : Nat) (db : Database)
    (shows : List TVShow) : Database × Option GoError :=
  let r := bulkWrite ShowRow.id faults db.tv_shows (shows.map (showRow now))
  ({ db with tv_shows := r.1 }, r.2)

/-- Embedding of `SaveGenres` (lines 108-127). -/
def SaveGenres (faults : SqlFaults Genre) (db : Database) (genres : List Genre) :
    Database × Option GoError :=
  let r := bulkWrite Genre.ID faults db.genres genres
  ({ db with genres := r.1 }, r.2)

/-- Embedding of `SaveMovieGenresBulk` (lines 171-190); the key of the table is
the pair of its two columns. -/
def SaveMovieGenresBulk (faults : SqlFaults MovieGenre) (db : Database)
    (relations : List MovieGenre) : Database × Option GoError :=
  let r := bulkWrite (fun rel : MovieGenre => (rel.MovieID, rel.GenreID)) faults
    db.movie_genres relations
  ({ db with movie_genres := r.1 }, r.2)

/-- Embedding of `SaveTVShowGenresBulk` (lines 192-211); the key of the table
is the pair of its two columns. -/
def SaveTVShowGenresBulk (faults : SqlFaults TVShowGenre) (db : Database)
    (relations : List TVShowGenre) : Database × Option GoError :=
  let r := bulkWrite (fun rel : TVShowGenre => (rel.TVShowID, rel.GenreID)) faults
    db.tvshow_genres relations
  ({ db with tvshow_genres := r.1 }, r.2)

/-- The claim "the write of row `i` fails with `err`" for a batch written
to a table: the transaction begins, the statement is prepared, the rows before
`i` are written without error, and `stmt.Exec` fails with `err` on row `i`. -/
def rowFailsAt {ρ κ : Type} [DecidableEq κ] (key : ρ → κ) (faults : SqlFaults ρ)
    (table rows : List ρ) (i : Nat) (err : GoError) : Prop :=
  faults.beginErr = none ∧ faults.prepareErr = none ∧
    (∀ j row, j < i → rows[j]? = some row →
      faults.execErr j ((rows.take j).foldl (insertOrReplace key) table) row = none) ∧
    ∃ row, rows[i]? = some row ∧
      faults.execErr i ((rows.take i).foldl (insertOrReplace key) table) row = some err

/-! ## Invariant and reference result of the enrichment -/

/-- The page as the enrichment leaves it when every goroutine has run: entry
number `k + i` is the decoded entry after the image-path rewriting and the
handling of its own resolution. -/
def enrichedFrom {α : Type} (ops : EnrichOps α) : Nat → List α → List α
  | _, [] => []
  | k, e :: rest => applyResolution ops k (ops.decorate e) :: enrichedFrom ops (k + 1) rest

/-- The reference result of the enrichment of a decoded page. -/
def enrichedPage {α : Type} (ops : EnrichOps α) (entries : List α) : List α :=
  enrichedFrom ops 0 entries

/-- A goroutine that holds a slot of `sem`. -/
def holdsSlot : Pc → Bool
  | .resolving => true
  | .resolved => true
  | _ => false

/-- A goroutine that has not yet called `wg.Done()`. -/
def unfinished : Pc → Bool
  | .finished => false
  | _ => true

/-- The number of steps a goroutine still has to take. -/
def stepsLeft : Pc → Nat
  | .blocked => 4
  | .resolving => 3
  | .resolved => 2
  | .released => 1
  | .finished => 0

/-- The number of actions an execution can still take from a state. -/
def actionsLeft {α : Type} (s : Enrich α) : Nat :=
  5 * (s.entries.length - s.next) + (s.pcs.map stepsLeft).sum + (if s.returned then 0 else 1)

/-- What the slice holds at index `i` for the decoded entry `e`, given where the
goroutine of that index stands (`none`: not started yet). -/
def expectedEntry {α : Type} (ops : EnrichOps α) (i : Nat) (pc : Option Pc) (e : α) : α :=
  match pc with
  | none => e
  | some Pc.blocked => ops.decorate e
  | some Pc.resolving => ops.decorate e
  | some _ => applyResolution ops i (ops.decorate e)

/-- The invariant of the enrichment of the decoded page `orig`. -/
structure Inv {α : Type} (ops : EnrichOps α) (orig : List α) (s : Enrich α) : Prop where
  len : s.entries.length = orig.length
  pcsLen : s.pcs.length = s.next
  nextLe : s.next ≤ orig.length
  semEq : s.sem = s.pcs.countP holdsSlot
  semLe : s.sem ≤ semCap
  wgEq : s.wg = s.pcs.countP unfinished
  ent : ∀ i e, orig[i]? = some e → s.entries[i]? = some (expectedEntry ops i s.pcs[i]? e)
  ret : s.returned = true → s.next = orig.length ∧ s.wg = 0

/-! ## Vocabulary of the claims about the fetchers -/

/-- The page `movies` is the list decoded by `DiscoverMovies`: the discovery
request is answered with status 200 and a body whose envelope and result list
decode without error. -/
def decodesMovies (cfg : Config) (rt : Runtime) (client : Client) (page : Int)
    (movies : List Movie) : Prop :=
  ∃ body response, client (discoverMoviesURL cfg page) = .response StatusOK body ∧
    rt.unmarshalResponse body = .ok response ∧
    rt.unmarshalMovies response.Results = .ok movies

/-- The page `shows` is the list decoded by `DiscoverTVShows`. -/
def decodesShows (cfg : Config) (rt : Runtime) (client : Client) (page : Int)
    (shows : List TVShow) : Prop :=
  ∃ body response, client (discoverTVShowsURL cfg page) = .response StatusOK body ∧
    rt.unmarshalResponse body = .ok response ∧
    rt.unmarshalShows response.Results = .ok shows

/-- An absolute image path: the configured base followed by the relative path,
and the empty string for an empty relative path. -/
def imageURL (cfg : Config) (path : String) : String :=
  if path = "" then "" else cfg.TMDB.ImageBaseURL ++ path

/-- A 2xx HTTP status. -/
def isSuccessStatus (status : Int) : Prop :=
  200 ≤ status ∧ status < 300

/-- An error built by `apiError`. -/
def isAPIError (err : Option GoError) : Prop :=
  ∃ status body, err = some (apiError status body)

/-- The safety properties of the admission gate in a state `s` of the
enrichment of `orig`: at most `semCap` resolutions are in flight, each holding
a slot; a slot can be taken only by a goroutine that has not started its
resolution and only while fewer than `semCap` are held; a resolution in flight
can complete and then give its slot back; and after `wg.Wait()` has returned
every entry has a goroutine and every goroutine is finished. -/
def GateRespected {α : Type} (ops : EnrichOps α) (orig : List α) (s : Enrich α) : Prop :=
  inFlight s ≤ semCap ∧ inFlight s ≤ s.sem ∧ s.sem ≤ semCap ∧
    (∀ i s2, step ops s (Action.acquire i) = some s2 →
      s.sem < semCap ∧ s.pcs[i]? = some Pc.blocked ∧ s2.pcs[i]? = some Pc.resolving ∧
        s2.sem = s.sem + 1) ∧
    (∀ i s2, step ops s (Action.complete i) = some s2 → s.pcs[i]? = some Pc.resolving) ∧
    (∀ i, s.pcs[i]? = some Pc.resolving →
      ∃ s2 s3, step ops s (Action.complete i) = some s2 ∧
        step ops s2 (Action.release i) = some s3 ∧ s3.sem + 1 = s.sem ∧
        s3.pcs[i]? = some Pc.released) ∧
    (s.returned = true → s.pcs.length = orig.length ∧ ∀ pc ∈ s.pcs, pc = Pc.finished)

/-! ## Data of the witnesses and counterexamples -/

/-- The videos of the witness of C1: a clip, a teaser, a non-official trailer
and an official trailer, in that order. -/
def c1Videos : List Video :=
  [ { Key := "clip", Site := "YouTube", Type_ := "Clip", Official := true },
    { Key := "teaser", Site := "YouTube", Type_ := "Teaser", Official := true },
    { Key := "fan", Site := "YouTube", Type_ := "Trailer", Official := false },
    { Key := "official", Site := "YouTube", Type_ := "Trailer", Official := true } ]

/-- A configuration with the given locale. -/
def demoConfig (lang : String) : Config :=
  { TMDB := { APIKey := "k", BaseURL := "https://api", ImageBaseURL := "https://img",
              Language := lang },
    Fetch := { NumPages := 1, IncludeAdult := false, IncludeVideo := false,
               MaxReleaseDate := "2025-01-01",
               Sort_ := { Movies := { Field := "popularity", Direction := "desc" },
                          TVShows := { Field := "popularity", Direction := "desc" } } } }

/-- A runtime that decodes the body `"en"` to one YouTube teaser, the body
`"all"` to the four videos of `c1Videos`, and every other body to an empty
list of videos; the page decoders are not used by the resolver. -/
def demoRuntime : Runtime :=
  { unmarshalResponse := fun _ => .error "unused",
    unmarshalMovies := fun _ => .error "unused",
    unmarshalShows := fun _ => .error "unused",
    unmarshalVideos := fun body =>
      if body = "en" then
        .ok { Results := [{ Key := "tz", Site := "YouTube", Type_ := "Teaser",
                            Official := false }] }
      else if body = "all" then .ok { Results := c1Videos }
      else .ok { Results := [] },
    unmarshalGenres := fun _ => .error "unused",
    queryEscape := fun q => q }

/-- A client that answers every request with status 200 and the given body. -/
def constClient (body : String) : Client :=
  fun _ => .response 200 body

/-- A client that answers the two given URLs with status 200 and the body
`"en"`, and every other request with status 200 and the body `"none"`. -/
def fallbackClient (url1 url2 : String) : Client :=
  fun url => if url = url1 ∨ url = url2 then .response 200 "en" else .response 200 "none"

/-- A client whose requests fail in transport except for the two given URLs,
which it answers with status 200 and the body `"none"`. -/
def failingPrimaryClient (url1 url2 : String) : Client :=
  fun url => if url = url1 ∨ url = url2 then .response 200 "none" else .getFailed "timeout"

/-- The client of the locale-fallback witness: the "en-US" video requests of
movie 603 and of show 1399 get the body `"en"`, every other request the body
`"none"`. -/
def c2Client : Client :=
  fallbackClient (movieVideosURL (demoConfig "pt-BR") 603 "en-US")
    (showVideosURL (demoConfig "pt-BR") 1399 "en-US")

/-- A client for which every request fails in transport, except the "en-US"
video requests of movie 603 and of show 1399, answered with status 200 and a
body that decodes to an empty list of videos. -/
def c8Client : Client :=
  failingPrimaryClient (movieVideosURL (demoConfig "pt-BR") 603 "en-US")
    (showVideosURL (demoConfig "pt-BR") 1399 "en-US")

/-- A movie with the given identifier and title and no other data. -/
def mkMovie (id : Int) (title : String) : Movie :=
  { ID := id, Title := title, Overview := "", ReleaseDate := "", PosterPath := "",
    BackdropPath := "", VoteAverage := 0, TrailerURL := "", Popularity := 0,
    CreatedAt := 0, GenreIDs := [] }

/-- A show with the given identifier and name and no other data. -/
def mkShow (id : Int) (name : String) : TVShow :=
  { ID := id, Name := name, Overview := "", FirstAirDate := "", PosterPath := "",
    BackdropPath := "", VoteAverage := 0, TrailerURL := "", Popularity := 0,
    CreatedAt := 0, GenreIDs := [] }

/-- A driver that reports no failure. -/
def noFaults {ρ : Type} : SqlFaults ρ :=
  { beginErr := none, prepareErr := none, execErr := fun _ _ _ => none, commitErr := none }

/-- A driver whose `stmt.Exec` number `k` (from 0) fails and that reports no
other failure. -/
def failAt {ρ : Type} (k : Nat) : SqlFaults ρ :=
  { beginErr := none, prepareErr := none,
    execErr := fun n _ _ => if n = k then some "disk full" else none,
    commitErr := none }

/-- A batch of ten movies, with the identifiers 1 to 10. -/
def tenMovies : List Movie :=
  [mkMovie 1 "a", mkMovie 2 "b", mkMovie 3 "c", mkMovie 4 "d", mkMovie 5 "e",
   mkMovie 6 "f", mkMovie 7 "g", mkMovie 8 "h", mkMovie 9 "i", mkMovie 10 "j"]

/-- A database whose table `movies` holds one row, of identifier 100. -/
def c3Database : Database :=
  { movies := [movieRow 5 (mkMovie 100 "old")], tv_shows := [], genres := [],
    movie_genres := [], tvshow_genres := [] }

/-- A row of `movies` with its `created_at` column blanked. -/
def MovieRow.withoutCreatedAt (r : MovieRow) : MovieRow :=
  { r with created_at := 0 }

/-- A row of `tv_shows` with its `created_at` column blanked. -/
def ShowRow.withoutCreatedAt (r : ShowRow) : ShowRow :=
  { r with created_at := 0 }

/-- A database whose table `movies` holds a row of identifier 1 and one of
identifier 100, and whose table `tv_shows` holds a row of identifier 1. -/
def c4Database : Database :=
  { movies := [movieRow 5 (mkMovie 1 "old"), movieRow 5 (mkMovie 100 "other")],
    tv_shows := [showRow 5 (mkShow 1 "old")], genres := [],
    movie_genres := [], tvshow_genres := [] }

/-- A batch of movies in which the identifier 1, already stored in
`c4Database`, occurs twice. -/
def c4Batch : List Movie :=
  [mkMovie 1 "new", mkMovie 2 "b", mkMovie 1 "newer"]

/-- The database after a first successful run of `SaveMoviesBulk` on `c4Batch`. -/
def c4After1 : Database :=
  (SaveMoviesBulk noFaults 10 c4Database c4Batch).1

/-- The database after a second successful run on the same batch. -/
def c4After2 : Database :=
  (SaveMoviesBulk noFaults 20 c4After1 c4Batch).1

/-- A runtime whose envelope decoder accepts every body and whose page decoders
return the given pages; videos are decoded as by `demoRuntime`. -/
def pageRuntime (movies : List Movie) (shows : List TVShow) : Runtime :=
  { unmarshalResponse := fun body =>
      .ok { Page := 1, Results := body, TotalPages := 1, TotalResults := 2 },
    unmarshalMovies := fun _ => .ok movies,
    unmarshalShows := fun _ => .ok shows,
    unmarshalVideos := demoRuntime.unmarshalVideos,
    unmarshalGenres := fun _ => .error "unused",
    queryEscape := fun q => q }

/-- A decoded page of two movies: the first with a poster path only, the second
with a backdrop path only and a trailer URL already present in the response. -/
def twoMovies : List Movie :=
  [ { mkMovie 1 "a" with PosterPath := "/p.jpg" },
    { mkMovie 2 "b" with BackdropPath := "/b.jpg", TrailerURL := "kept" } ]

/-- A decoded page of two shows, with the same paths as `twoMovies`. -/
def twoShows : List TVShow :=
  [ { mkShow 1 "a" with PosterPath := "/p.jpg" },
    { mkShow 2 "b" with BackdropPath := "/b.jpg", TrailerURL := "kept" } ]

/-- The clients of the goroutines in the witnesses: the goroutine of index 0
finds one teaser, the requests of every other goroutine fail in transport. -/
def demoClients : Nat → Client :=
  fun i => if i = 0 then constClient "en" else fun _ => .getFailed "timeout"

/-- An interleaving of the enrichment of a page of two entries in which the
second resolution completes before the first. -/
def interleaved : List Action :=
  [Action.spawn, Action.spawn, Action.acquire 1, Action.acquire 0, Action.complete 1,
   Action.release 1, Action.complete 0, Action.done 1, Action.release 0, Action.done 0,
   Action.wait]

/-- The page returned for `twoMovies` in the witnesses. -/
def twoMoviesEnriched : List Movie :=
  [ { mkMovie 1 "a" with PosterPath := "https://img/p.jpg",
                         TrailerURL := "https://www.youtube.com/watch?v=tz" },
    { mkMovie 2 "b" with BackdropPath := "https://img/b.jpg", TrailerURL := "kept" } ]

/-- The page returned for `twoShows` in the witnesses. -/
def twoShowsEnriched : List TVShow :=
  [ { mkShow 1 "a" with PosterPath := "https://img/p.jpg",
                        TrailerURL := "https://www.youtube.com/watch?v=tz" },
    { mkShow 2 "b" with BackdropPath := "https://img/b.jpg", TrailerURL := "kept" } ]

/-- A client that answers every request with the given status and body. -/
def statusClient (status : Int) (body : String) : Client :=
  fun _ => .response status body

/-- A decoded page of 25 movies. -/
def movies25 : List Movie :=
  (List.range 25).map (fun i => mkMovie (Int.ofNat i) "m")

/-- An execution prefix for a page of 25 entries: all 25 goroutines are
started, then the first ten take a slot. -/
def tenInFlight : List Action :=
  List.replicate 25 Action.spawn ++ (List.range 10).map Action.acquire

/-! ## Theorems -/

theorem watchURL_ne_empty (key : String) : watchURL key ≠ "" := by
  intro h
  have h2 := congrArg String.length h
  simp [watchURL, String.length_append] at h2
  have : ("https://www.youtube.com/watch?v=" : String).length = 32 := by decide
  omega

theorem filter_of_find?_some {α : Type} (p : α → Bool) :
    ∀ (l : List α) (v : α), l.find? p = some v → ∃ rest, l.filter p = v :: rest := by
  intro l
  induction l with
  | nil => intro v h; simp at h
  | cons a t ih =>
    intro v h
    by_cases hp : p a = true
    · simp [List.find?, hp] at h
      subst h
      exact ⟨t.filter p, by simp [List.filter, hp]⟩
    · have hp2 : p a = false := by simpa using hp
      simp [List.find?, hp2] at h
      obtain ⟨rest, hr⟩ := ih v h
      exact ⟨rest, by simp [List.filter, hp2, hr]⟩

theorem filter_of_find?_none {α : Type} (p : α → Bool) (l : List α)
    (h : l.find? p = none) : l.filter p = [] := by
  rw [List.filter_eq_nil_iff]
  exact List.find?_eq_none.mp h

theorem selectTrailer_eq_specSelect (videos : List Video) :
    selectTrailer videos = specSelect videos := by
  have e1 : isOfficialTrailer =
      (fun v => decide (v.Site = "YouTube" ∧ v.Type_ = "Trailer" ∧ v.Official = true)) := by
    funext v; rw [Bool.eq_iff_iff]; simp [isOfficialTrailer, and_assoc]
  have e2 : isTrailer = (fun v => decide (v.Site = "YouTube" ∧ v.Type_ = "Trailer")) := by
    funext v; rw [Bool.eq_iff_iff]; simp [isTrailer]
  have e3 : isTeaser = (fun v => decide (v.Site = "YouTube" ∧ v.Type_ = "Teaser")) := by
    funext v; rw [Bool.eq_iff_iff]; simp [isTeaser]
  have e4 : isClip = (fun v => decide (v.Site = "YouTube" ∧ v.Type_ = "Clip")) := by
    funext v; rw [Bool.eq_iff_iff]; simp [isClip]
  unfold selectTrailer specSelect specTiers
  rw [← e1, ← e2, ← e3, ← e4]
  cases h1 : videos.find? isOfficialTrailer with
  | some v =>
    obtain ⟨r, hr⟩ := filter_of_find?_some _ _ _ h1
    simp [List.find?, hr]
  | none =>
    have f1 := filter_of_find?_none _ _ h1
    cases h2 : videos.find? isTrailer with
    | some v =>
      obtain ⟨r, hr⟩ := filter_of_find?_some _ _ _ h2
      simp [List.find?, hr, f1]
    | none =>
      have f2 := filter_of_find?_none _ _ h2
      cases h3 : videos.find? isTeaser with
      | some v =>
        obtain ⟨r, hr⟩ := filter_of_find?_some _ _ _ h3
        simp [List.find?, hr, f1, f2]
      | none =>
        have f3 := filter_of_find?_none _ _ h3
        cases h4 : videos.find? isClip with
        | some v =>
          obtain ⟨r, hr⟩ := filter_of_find?_some _ _ _ h4
          simp [List.find?, hr, f1, f2, f3]
        | none =>
          have f4 := filter_of_find?_none _ _ h4
          simp [List.find?, f1, f2, f3, f4]

theorem selectTrailer_eq_empty_iff (videos : List Video) :
    selectTrailer videos = "" ↔ ∀ v ∈ videos, ¬ qualifies v := by
  unfold selectTrailer
  constructor
  · intro h v hv hq
    cases h1 : videos.find? isOfficialTrailer with
    | some w => rw [h1] at h; exact watchURL_ne_empty _ h
    | none =>
      rw [h1] at h
      cases h2 : videos.find? isTrailer with
      | some w => rw [h2] at h; exact watchURL_ne_empty _ h
      | none =>
        rw [h2] at h
        cases h3 : videos.find? isTeaser with
        | some w => rw [h3] at h; exact watchURL_ne_empty _ h
        | none =>
          rw [h3] at h
          cases h4 : videos.find? isClip with
          | some w => rw [h4] at h; exact watchURL_ne_empty _ h
          | none =>
            have a2 := List.find?_eq_none.mp h2 v hv
            have a3 := List.find?_eq_none.mp h3 v hv
            have a4 := List.find?_eq_none.mp h4 v hv
            obtain ⟨hs, ht | ht | ht⟩ := hq
            · exact a2 (by simp [isTrailer, hs, ht])
            · exact a3 (by simp [isTeaser, hs, ht])
            · exact a4 (by simp [isClip, hs, ht])
  · intro h
    have n1 : videos.find? isOfficialTrailer = none := by
      rw [List.find?_eq_none]; intro v hv hp
      simp [isOfficialTrailer] at hp
      exact h v hv ⟨hp.1.1, Or.inl hp.1.2⟩
    have n2 : videos.find? isTrailer = none := by
      rw [List.find?_eq_none]; intro v hv hp
      simp [isTrailer] at hp
      exact h v hv ⟨hp.1, Or.inl hp.2⟩
    have n3 : videos.find? isTeaser = none := by
      rw [List.find?_eq_none]; intro v hv hp
      simp [isTeaser] at hp
      exact h v hv ⟨hp.1, Or.inr (Or.inl hp.2)⟩
    have n4 : videos.find? isClip = none := by
      rw [List.find?_eq_none]; intro v hv hp
      simp [isClip] at hp
      exact h v hv ⟨hp.1, Or.inr (Or.inr hp.2)⟩
    simp [n1, n2, n3, n4]

theorem selectTrailer_official (videos : List Video) (o : Video) (ho : o ∈ videos)
    (hoff : isOfficialTrailer o = true)
    (huniq : ∀ v ∈ videos, isOfficialTrailer v = true → v = o) :
    selectTrailer videos = watchURL o.Key := by
  unfold selectTrailer
  cases h1 : videos.find? isOfficialTrailer with
  | some w =>
    have hw := huniq w (List.mem_of_find?_eq_some h1) (List.find?_some h1)
    simp [hw]
  | none =>
    exact absurd hoff (List.find?_eq_none.mp h1 o ho)

theorem trailerOfOutcome_ok (rt : Runtime) (body : String) (vr : VideoResponse)
    (hdec : rt.unmarshalVideos body = .ok vr) :
    trailerOfOutcome rt (.response StatusOK body) = (selectTrailer vr.Results, none) := by
  simp [trailerOfOutcome, hdec]

/-- C1: for a response with status 200 whose body decodes to a list of videos,
the `getTrailer` closures of `GetMovieTrailer` and `GetTVShowTrailer` return,
with a nil error, the watch URL of the first video of the highest-priority
non-empty tier (official YouTube trailer, YouTube trailer, YouTube teaser,
YouTube clip); the result is the empty string exactly when no video is a
YouTube Trailer, Teaser or Clip; and for every ordering of an official YouTube
trailer, a non-official one, a teaser and a clip it is the official trailer's
URL. -/
theorem C1_selection_policy (rt : Runtime) (body : String) (vr : VideoResponse)
    (hdec : rt.unmarshalVideos body = .ok vr) :
    (∀ (cfg : Config) (client : Client) (movieID : Int) (lang : String),
        client (movieVideosURL cfg movieID lang) = .response StatusOK body →
        movieGetTrailer cfg rt client movieID lang = (specSelect vr.Results, none)) ∧
    (∀ (cfg : Config) (client : Client) (showID : Int) (lang : String),
        client (showVideosURL cfg showID lang) = .response StatusOK body →
        showGetTrailer cfg rt client showID lang = (specSelect vr.Results, none)) ∧
    (specSelect vr.Results = "" ↔ ∀ v ∈ vr.Results, ¬ qualifies v) ∧
    (∀ o n t c : Video,
        o.Site = "YouTube" ∧ o.Type_ = "Trailer" ∧ o.Official = true →
        n.Site = "YouTube" ∧ n.Type_ = "Trailer" ∧ n.Official = false →
        t.Type_ = "Teaser" →
        c.Type_ = "Clip" →
        vr.Results.Perm [o, n, t, c] →
        specSelect vr.Results = watchURL o.Key) := by
  refine ⟨?_, ?_, ?_, ?_⟩
  · intro cfg client movieID lang h
    rw [movieGetTrailer, h, trailerOfOutcome_ok rt body vr hdec, selectTrailer_eq_specSelect]
  · intro cfg client showID lang h
    rw [showGetTrailer, h, trailerOfOutcome_ok rt body vr hdec, selectTrailer_eq_specSelect]
  · rw [← selectTrailer_eq_specSelect]
    exact selectTrailer_eq_empty_iff _
  · intro o n t c ho hn ht hc hperm
    rw [← selectTrailer_eq_specSelect]
    apply selectTrailer_official
    · exact hperm.symm.subset (by simp)
    · simp [isOfficialTrailer, ho.1, ho.2.1, ho.2.2]
    · intro v hv hoff
      have hv2 : v ∈ [o, n, t, c] := hperm.subset hv
      simp only [List.mem_cons, List.mem_singleton, List.not_mem_nil, or_false] at hv2
      simp only [isOfficialTrailer, Bool.and_eq_true, beq_iff_eq] at hoff
      rcases hv2 with h | h | h | h
      · exact h
      · subst h; rw [hn.2.2] at hoff; exact absurd hoff.2 (by simp)
      · subst h; rw [ht] at hoff; exact absurd hoff.1.2 (by decide)
      · subst h; rw [hc] at hoff; exact absurd hoff.1.2 (by decide)

theorem C1_selection_policy_witness :
    movieGetTrailer (demoConfig "pt-BR") demoRuntime (constClient "all") 603 "pt-BR"
        = ("https://www.youtube.com/watch?v=official", none) ∧
      showGetTrailer (demoConfig "pt-BR") demoRuntime (constClient "all") 1399 "pt-BR"
        = ("https://www.youtube.com/watch?v=official", none) := by
  have h := C1_selection_policy demoRuntime "all" { Results := c1Videos } (by simp [demoRuntime])
  refine ⟨?_, ?_⟩
  · rw [h.1 (demoConfig "pt-BR") (constClient "all") 603 "pt-BR" rfl]
    decide
  · rw [h.2.1 (demoConfig "pt-BR") (constClient "all") 1399 "pt-BR" rfl]
    decide

/-- C2: `GetMovieTrailer` and `GetTVShowTrailer` return the first non-empty URL
of their attempts with a nil error. A non-empty primary-locale result is
returned after that single request; an empty one with a configured locale
other than "en-US" is followed by exactly one request with "en-US", whose
non-empty URL is returned; with the locale "en-US" there is no second
request; and when every attempt made succeeds with an empty result the call
returns the empty string with a nil error. -/
theorem C2_locale_fallback (cfg : Config) (rt : Runtime) (client : Client) (id : Int) :
    ((movieGetTrailer cfg rt client id cfg.TMDB.Language).1 ≠ "" →
        (GetMovieTrailer cfg rt client id).trailer
            = (movieGetTrailer cfg rt client id cfg.TMDB.Language).1 ∧
          (GetMovieTrailer cfg rt client id).err = none ∧
          (GetMovieTrailer cfg rt client id).requests
            = [movieVideosURL cfg id cfg.TMDB.Language]) ∧
    ((movieGetTrailer cfg rt client id cfg.TMDB.Language).1 = "" →
        cfg.TMDB.Language ≠ "en-US" →
        (GetMovieTrailer cfg rt client id).requests
            = [movieVideosURL cfg id cfg.TMDB.Language, movieVideosURL cfg id "en-US"] ∧
          ((movieGetTrailer cfg rt client id "en-US").1 ≠ "" →
            (GetMovieTrailer cfg rt client id).trailer
                = (movieGetTrailer cfg rt client id "en-US").1 ∧
              (GetMovieTrailer cfg rt client id).err = none) ∧
          (movieGetTrailer cfg rt client id cfg.TMDB.Language = ("", none) →
            movieGetTrailer cfg rt client id "en-US" = ("", none) →
            (GetMovieTrailer cfg rt client id).trailer = "" ∧
              (GetMovieTrailer cfg rt client id).err = none)) ∧
    ((movieGetTrailer cfg rt client id cfg.TMDB.Language).1 = "" →
        cfg.TMDB.Language = "en-US" →
        (GetMovieTrailer cfg rt client id).requests
            = [movieVideosURL cfg id cfg.TMDB.Language] ∧
          (movieGetTrailer cfg rt client id cfg.TMDB.Language = ("", none) →
            (GetMovieTrailer cfg rt client id).trailer = "" ∧
              (GetMovieTrailer cfg rt client id).err = none)) ∧
    ((showGetTrailer cfg rt client id cfg.TMDB.Language).1 ≠ "" →
        (GetTVShowTrailer cfg rt client id).trailer
            = (showGetTrailer cfg rt client id cfg.TMDB.Language).1 ∧
          (GetTVShowTrailer cfg rt client id).err = none ∧
          (GetTVShowTrailer cfg rt client id).requests
            = [showVideosURL cfg id cfg.TMDB.Language]) ∧
    ((showGetTrailer cfg rt client id cfg.TMDB.Language).1 = "" →
        cfg.TMDB.Language ≠ "en-US" →
        (GetTVShowTrailer cfg rt client id).requests
            = [showVideosURL cfg id cfg.TMDB.Language, showVideosURL cfg id "en-US"] ∧
          ((showGetTrailer cfg rt client id "en-US").1 ≠ "" →
            (GetTVShowTrailer cfg rt client id).trailer
                = (showGetTrailer cfg rt client id "en-US").1 ∧
              (GetTVShowTrailer cfg rt client id).err = none) ∧
          (showGetTrailer cfg rt client id cfg.TMDB.Language = ("", none) →
            showGetTrailer cfg rt client id "en-US" = ("", none) →
            (GetTVShowTrailer cfg rt client id).trailer = "" ∧
              (GetTVShowTrailer cfg rt client id).err = none)) ∧
    ((showGetTrailer cfg rt client id cfg.TMDB.Language).1 = "" →
        cfg.TMDB.Language = "en-US" →
        (GetTVShowTrailer cfg rt client id).requests
            = [showVideosURL cfg id cfg.TMDB.Language] ∧
          (showGetTrailer cfg rt client id cfg.TMDB.Language = ("", none) →
            (GetTVShowTrailer cfg rt client id).trailer = "" ∧
              (GetTVShowTrailer cfg rt client id).err = none)) := by
  refine ⟨?_, ?_, ?_, ?_, ?_, ?_⟩
  · intro h
    simp [GetMovieTrailer, h]
  · intro h hl
    refine ⟨?_, ?_, ?_⟩
    · by_cases h2 : (movieGetTrailer cfg rt client id "en-US").1 = "" <;>
        simp [GetMovieTrailer, h, hl, h2]
    · intro h2
      simp [GetMovieTrailer, h, hl, h2]
    · intro _ h2
      simp [GetMovieTrailer, h, hl, h2]
  · intro h hl
    rw [hl] at h
    refine ⟨?_, ?_⟩
    · simp [GetMovieTrailer, h, hl]
    · intro h1
      rw [hl] at h1
      simp [GetMovieTrailer, hl, h1]
  · intro h
    simp [GetTVShowTrailer, h]
  · intro h hl
    refine ⟨?_, ?_, ?_⟩
    · by_cases h2 : (showGetTrailer cfg rt client id "en-US").1 = "" <;>
        simp [GetTVShowTrailer, h, hl, h2]
    · intro h2
      simp [GetTVShowTrailer, h, hl, h2]
    · intro _ h2
      simp [GetTVShowTrailer, h, hl, h2]
  · intro h hl
    rw [hl] at h
    refine ⟨?_, ?_⟩
    · simp [GetTVShowTrailer, h, hl]
    · intro h1
      rw [hl] at h1
      simp [GetTVShowTrailer, hl, h1]

theorem C2_locale_fallback_witness :
    (GetMovieTrailer (demoConfig "pt-BR") demoRuntime c2Client 603).trailer
        = "https://www.youtube.com/watch?v=tz" ∧
      (GetMovieTrailer (demoConfig "pt-BR") demoRuntime c2Client 603).err = none ∧
      (GetMovieTrailer (demoConfig "pt-BR") demoRuntime c2Client 603).requests
        = ["https://api/movie/603/videos?api_key=k&language=pt-BR",
           "https://api/movie/603/videos?api_key=k&language=en-US"] := by
  have h := (C2_locale_fallback (demoConfig "pt-BR") demoRuntime c2Client 603).2.1
    (by decide) (by decide)
  have e : movieGetTrailer (demoConfig "pt-BR") demoRuntime c2Client 603 "en-US"
      = ("https://www.youtube.com/watch?v=tz", none) := by decide
  refine ⟨?_, ?_, ?_⟩
  · rw [(h.2.1 (by rw [e]; decide)).1, e]
  · exact (h.2.1 (by rw [e]; decide)).2
  · rw [h.1]; decide

/-- C8, the code at the failing input: with the locale "pt-BR", a primary
attempt that fails in transport and an "en-US" attempt that succeeds with no
video, `GetMovieTrailer` and `GetTVShowTrailer` return the empty string with a
nil error: the error of the primary attempt is overwritten by the nil error of
the fallback attempt. -/
theorem C8_primary_error_overwritten :
    movieGetTrailer (demoConfig "pt-BR") demoRuntime c8Client 603 "pt-BR"
        = ("", some "timeout") ∧
      movieGetTrailer (demoConfig "pt-BR") demoRuntime c8Client 603 "en-US" = ("", none) ∧
      (GetMovieTrailer (demoConfig "pt-BR") demoRuntime c8Client 603).trailer = "" ∧
      (GetMovieTrailer (demoConfig "pt-BR") demoRuntime c8Client 603).err = none ∧
      showGetTrailer (demoConfig "pt-BR") demoRuntime c8Client 1399 "pt-BR"
        = ("", some "timeout") ∧
      showGetTrailer (demoConfig "pt-BR") demoRuntime c8Client 1399 "en-US" = ("", none) ∧
      (GetTVShowTrailer (demoConfig "pt-BR") demoRuntime c8Client 1399).trailer = "" ∧
      (GetTVShowTrailer (demoConfig "pt-BR") demoRuntime c8Client 1399).err = none := by
  decide

/-! ### Bulk writer -/

theorem execAll_ok {ρ κ : Type} [DecidableEq κ] (key : ρ → κ) (faults : SqlFaults ρ) :
    ∀ (rows : List ρ) (n : Nat) (tx tx2 : Tx ρ),
      execAll key faults n tx rows = .ok tx2 →
      tx2.committed = tx.committed ∧ tx2.work = rows.foldl (insertOrReplace key) tx.work := by
  intro rows
  induction rows with
  | nil =>
    intro n tx tx2 h
    simp [execAll] at h
    subst h
    simp
  | cons r rest ih =>
    intro n tx tx2 h
    unfold execAll at h
    cases hf : faults.execErr n tx.work r with
    | some err => rw [hf] at h; simp at h
    | none =>
      rw [hf] at h
      have := ih (n + 1) _ tx2 h
      simpa using this

theorem execAll_error {ρ κ : Type} [DecidableEq κ] (key : ρ → κ) (faults : SqlFaults ρ) :
    ∀ (rows : List ρ) (n : Nat) (tx tx2 : Tx ρ) (err : GoError),
      execAll key faults n tx rows = .error (err, tx2) → tx2.committed = tx.committed := by
  intro rows
  induction rows with
  | nil => intro n tx tx2 err h; simp [execAll] at h
  | cons r rest ih =>
    intro n tx tx2 err h
    unfold execAll at h
    cases hf : faults.execErr n tx.work r with
    | some e =>
      rw [hf] at h
      simp at h
      rw [← h.2]
    | none =>
      rw [hf] at h
      have := ih (n + 1) _ tx2 err h
      simpa using this

theorem execAll_fails {ρ κ : Type} [DecidableEq κ] (key : ρ → κ) (faults : SqlFaults ρ) :
    ∀ (rows : List ρ) (n : Nat) (tx : Tx ρ) (i : Nat) (err : GoError),
      (∀ j row, j < i → rows[j]? = some row →
        faults.execErr (n + j) ((rows.take j).foldl (insertOrReplace key) tx.work) row = none) →
      (∃ row, rows[i]? = some row ∧
        faults.execErr (n + i) ((rows.take i).foldl (insertOrReplace key) tx.work) row
          = some err) →
      ∃ tx2, execAll key faults n tx rows = .error (err, tx2) := by
  intro rows
  induction rows with
  | nil =>
    intro n tx i err _ h
    obtain ⟨row, hr, _⟩ := h
    simp at hr
  | cons r rest ih =>
    intro n tx i err hbefore hat
    obtain ⟨row, hr, hfail⟩ := hat
    cases i with
    | zero =>
      simp at hr
      subst hr
      simp at hfail
      exact ⟨tx, by simp [execAll, hfail]⟩
    | succ k =>
      have h0 : faults.execErr n tx.work r = none := by
        have := hbefore 0 r (by omega) (by simp)
        simpa using this
      unfold execAll
      rw [h0]
      apply ih (n + 1) _ k err
      · intro j row2 hj hrow2
        have := hbefore (j + 1) row2 (by omega) (by simpa using hrow2)
        simpa [Nat.add_assoc, Nat.add_comm 1 j] using this
      · refine ⟨row, by simpa using hr, ?_⟩
        simpa [Nat.add_assoc, Nat.add_comm 1 k] using hfail

theorem bulkWrite_error_unchanged {ρ κ : Type} [DecidableEq κ] (key : ρ → κ)
    (faults : SqlFaults ρ) (table rows : List ρ)
    (h : (bulkWrite key faults table rows).2 ≠ none) :
    (bulkWrite key faults table rows).1 = table := by
  unfold bulkWrite at h ⊢
  cases hb : faults.beginErr with
  | some e => simp
  | none =>
    cases hp : faults.prepareErr with
    | some e => simp [Tx.rollback]
    | none =>
      simp only [hb, hp] at h ⊢
      cases he : execAll key faults 0 { committed := table, work := table } rows with
      | error p =>
        obtain ⟨e, tx2⟩ := p
        have := execAll_error key faults rows 0 _ tx2 e he
        simpa [Tx.rollback] using this
      | ok tx2 =>
        have hc := (execAll_ok key faults rows 0 _ tx2 he).1
        rw [he] at h
        cases hcm : faults.commitErr with
        | some e => simpa using hc
        | none => simp [hcm] at h

theorem bulkWrite_rowFails {ρ κ : Type} [DecidableEq κ] (key : ρ → κ)
    (faults : SqlFaults ρ) (table rows : List ρ) (i : Nat) (err : GoError)
    (h : rowFailsAt key faults table rows i err) :
    bulkWrite key faults table rows = (table, some err) := by
  obtain ⟨hb, hp, hbefore, hat⟩ := h
  obtain ⟨tx2, he⟩ := execAll_fails key faults rows 0 { committed := table, work := table }
    i err (by simpa using hbefore) (by simpa using hat)
  have hc := execAll_error key faults rows 0 _ tx2 err he
  unfold bulkWrite
  simp only [hb, hp, he]
  simpa [Tx.rollback] using hc

theorem bulkWrite_success {ρ κ : Type} [DecidableEq κ] (key : ρ → κ)
    (faults : SqlFaults ρ) (table rows result : List ρ)
    (h : bulkWrite key faults table rows = (result, none)) :
    result = rows.foldl (insertOrReplace key) table := by
  unfold bulkWrite at h
  cases hb : faults.beginErr with
  | some e => simp [hb] at h
  | none =>
    cases hp : faults.prepareErr with
    | some e => simp [hb, hp] at h
    | none =>
      simp only [hb, hp] at h
      cases he : execAll key faults 0 { committed := table, work := table } rows with
      | error p => simp [he] at h
      | ok tx2 =>
        have hw := (execAll_ok key faults rows 0 _ tx2 he).2
        rw [he] at h
        cases hcm : faults.commitErr with
        | some e => simp [hcm] at h
        | none =>
          simp [hcm, Tx.commit] at h
          rw [← h, hw]

/-- C3: when the write of a row fails inside `SaveMoviesBulk`, `SaveTVShowsBulk`,
`SaveGenres`, `SaveMovieGenresBulk` or `SaveTVShowGenresBulk`, the call returns
the error of that write and the database after the call equals the database
before it: no row of the batch remains committed, the rows written before the
failing one included. -/
theorem C3_batch_atomic :
    (∀ (faults : SqlFaults MovieRow) (now : Nat) (db : Database) (movies : List Movie)
        (i : Nat) (err : GoError),
        rowFailsAt MovieRow.id faults db.movies (movies.map (movieRow now)) i err →
        SaveMoviesBulk faults now db movies = (db, some err)) ∧
    (∀ (faults : SqlFaults ShowRow) (now : Nat) (db : Database) (shows : List TVShow)
        (i : Nat) (err : GoError),
        rowFailsAt ShowRow.id faults db.tv_shows (shows.map (showRow now)) i err →
        SaveTVShowsBulk faults now db shows = (db, some err)) ∧
    (∀ (faults : SqlFaults Genre) (db : Database) (genres : List Genre)
        (i : Nat) (err : GoError),
        rowFailsAt Genre.ID faults db.genres genres i err →
        SaveGenres faults db genres = (db, some err)) ∧
    (∀ (faults : SqlFaults MovieGenre) (db : Database) (relations : List MovieGenre)
        (i : Nat) (err : GoError),
        rowFailsAt (fun rel : MovieGenre => (rel.MovieID, rel.GenreID)) faults
          db.movie_genres relations i err →
        SaveMovieGenresBulk faults db relations = (db, some err)) ∧
    (∀ (faults : SqlFaults TVShowGenre) (db : Database) (relations : List TVShowGenre)
        (i : Nat) (err : GoError),
        rowFailsAt (fun rel : TVShowGenre => (rel.TVShowID, rel.GenreID)) faults
          db.tvshow_genres relations i err →
        SaveTVShowGenresBulk faults db relations = (db, some err)) := by
  refine ⟨?_, ?_, ?_, ?_, ?_⟩
  · intro faults now db movies i err h
    simp [SaveMoviesBulk, bulkWrite_rowFails _ _ _ _ i err h]
  · intro faults now db shows i err h
    simp [SaveTVShowsBulk, bulkWrite_rowFails _ _ _ _ i err h]
  · intro faults db genres i err h
    simp [SaveGenres, bulkWrite_rowFails _ _ _ _ i err h]
  · intro faults db relations i err h
    simp [SaveMovieGenresBulk, bulkWrite_rowFails _ _ _ _ i err h]
  · intro faults db relations i err h
    simp [SaveTVShowGenresBulk, bulkWrite_rowFails _ _ _ _ i err h]

theorem C3_batch_atomic_witness :
    SaveMoviesBulk (failAt 6) 1000 c3Database tenMovies = (c3Database, some "disk full") ∧
      ∀ m ∈ tenMovies, ∀ r ∈ (SaveMoviesBulk (failAt 6) 1000 c3Database tenMovies).1.movies,
        r.id ≠ m.ID := by
  have h := C3_batch_atomic.1 (failAt 6) 1000 c3Database tenMovies 6 "disk full"
    ⟨rfl, rfl, by
      intro j row hj _
      have : j ≠ 6 := by omega
      simp [failAt, this], _, rfl, by simp [failAt]⟩
  refine ⟨h, ?_⟩
  rw [h]
  decide

theorem foldl_insertOrReplace_split {ρ κ : Type} [DecidableEq κ] (key : ρ → κ) :
    ∀ (rows table : List ρ),
      rows.foldl (insertOrReplace key) table
        = table.filter (fun r => decide (key r ∉ rows.map key))
            ++ rows.foldl (insertOrReplace key) [] := by
  intro rows
  induction rows with
  | nil => intro table; simp
  | cons a rest ih =>
    intro table
    simp only [List.foldl_cons]
    rw [ih (insertOrReplace key table a), ih (insertOrReplace key [] a)]
    simp only [insertOrReplace, List.filter_append, List.filter_filter, List.filter_nil,
      List.nil_append, List.append_assoc]
    congr 1
    apply List.filter_congr
    intro x _
    by_cases h1 : key x = key a <;> by_cases h2 : key x ∈ List.map key rest <;>
      simp [h1, h2]

theorem mem_foldl_insertOrReplace {ρ κ : Type} [DecidableEq κ] (key : ρ → κ) :
    ∀ (rows table : List ρ) (x : ρ),
      x ∈ rows.foldl (insertOrReplace key) table → x ∈ table ∨ x ∈ rows := by
  intro rows
  induction rows with
  | nil => intro table x h; simpa using h
  | cons a rest ih =>
    intro table x h
    simp only [List.foldl_cons] at h
    rcases ih _ x h with h1 | h1
    · simp only [insertOrReplace, List.mem_append, List.mem_filter, List.mem_singleton] at h1
      rcases h1 with h2 | h2
      · exact Or.inl h2.1
      · exact Or.inr (by simp [h2])
    · exact Or.inr (List.mem_cons_of_mem _ h1)

theorem foldl_insertOrReplace_idem {ρ κ : Type} [DecidableEq κ] (key : ρ → κ)
    (rows table : List ρ) :
    rows.foldl (insertOrReplace key) (rows.foldl (insertOrReplace key) table)
      = rows.foldl (insertOrReplace key) table := by
  rw [foldl_insertOrReplace_split key rows (rows.foldl (insertOrReplace key) table)]
  rw [foldl_insertOrReplace_split key rows table]
  rw [List.filter_append, List.filter_filter]
  have hnil : (rows.foldl (insertOrReplace key) []).filter
      (fun r => decide (key r ∉ rows.map key)) = [] := by
    rw [List.filter_eq_nil_iff]
    intro x hx
    rcases mem_foldl_insertOrReplace key rows [] x hx with h | h
    · simp at h
    · simp only [decide_eq_true_eq, not_not]
      exact List.mem_map_of_mem key h
  rw [hnil, List.append_nil]
  congr 1
  apply List.filter_congr
  intro x _
  simp

theorem map_foldl_insertOrReplace {ρ κ : Type} [DecidableEq κ] (key : ρ → κ) (e : ρ → ρ)
    (hkey : ∀ r, key (e r) = key r) :
    ∀ (rows table : List ρ),
      (rows.foldl (insertOrReplace key) table).map e
        = (rows.map e).foldl (insertOrReplace key) (table.map e) := by
  intro rows
  induction rows with
  | nil => intro table; simp
  | cons a rest ih =>
    intro table
    simp only [List.foldl_cons, List.map_cons]
    rw [ih]
    congr 1
    simp only [insertOrReplace, List.map_append, List.map_cons, List.map_nil,
      List.filter_map]
    congr 2
    apply List.filter_congr
    intro x _
    simp [hkey]

theorem length_filter_key_foldl_of_not_mem {ρ κ : Type} [DecidableEq κ] (key : ρ → κ)
    (k : κ) :
    ∀ (rows table : List ρ), k ∉ rows.map key →
      ((rows.foldl (insertOrReplace key) table).filter (fun r => decide (key r = k))).length
        = (table.filter (fun r => decide (key r = k))).length := by
  intro rows
  induction rows with
  | nil => intro table _; simp
  | cons a rest ih =>
    intro table hk
    simp only [List.map_cons, List.mem_cons, not_or] at hk
    simp only [List.foldl_cons]
    rw [ih _ hk.2]
    simp only [insertOrReplace, List.filter_append, List.filter_filter, List.length_append]
    have h1 : [a].filter (fun r => decide (key r = k)) = [] := by
      simp [List.filter, Ne.symm hk.1]
    rw [h1]
    simp only [List.length_nil, Nat.add_zero]
    congr 1
    apply List.filter_congr
    intro x _
    by_cases hx : key x = k
    · simp [hx, hk.1]
    · simp [hx]

theorem length_filter_key_foldl {ρ κ : Type} [DecidableEq κ] (key : ρ → κ) :
    ∀ (rows table : List ρ) (r : ρ), r ∈ rows →
      ((rows.foldl (insertOrReplace key) table).filter
        (fun x => decide (key x = key r))).length = 1 := by
  intro rows
  induction rows with
  | nil => intro table r h; simp at h
  | cons a rest ih =>
    intro table r hr
    simp only [List.foldl_cons]
    by_cases hin : key r ∈ rest.map key
    · obtain ⟨r2, hr2, hk⟩ := List.mem_map.mp hin
      rw [← hk]
      exact ih _ r2 hr2
    · have hra : key r = key a := by
        rcases List.mem_cons.mp hr with h | h
        · rw [h]
        · exact absurd (List.mem_map_of_mem key h) hin
      rw [length_filter_key_foldl_of_not_mem key (key r) rest _ hin]
      simp only [insertOrReplace, List.filter_append, List.filter_filter, List.length_append]
      have h1 : [a].filter (fun x => decide (key x = key r)) = [a] := by
        simp [List.filter, hra]
      have h2 : table.filter (fun x => decide (key x = key r) && decide (key x ≠ key a)) = [] := by
        rw [List.filter_eq_nil_iff]
        intro x _
        simp [hra]
      rw [h1, h2]
      simp

theorem SaveMoviesBulk_success (faults : SqlFaults MovieRow) (now : Nat) (db db1 : Database)
    (movies : List Movie) (h : SaveMoviesBulk faults now db movies = (db1, none)) :
    db1.movies = (movies.map (movieRow now)).foldl (insertOrReplace MovieRow.id) db.movies := by
  simp only [SaveMoviesBulk, Prod.mk.injEq] at h
  apply bulkWrite_success MovieRow.id faults
  rw [← h.1]
  exact Prod.ext rfl h.2

theorem SaveTVShowsBulk_success (faults : SqlFaults ShowRow) (now : Nat) (db db1 : Database)
    (shows : List TVShow) (h : SaveTVShowsBulk faults now db shows = (db1, none)) :
    db1.tv_shows = (shows.map (showRow now)).foldl (insertOrReplace ShowRow.id) db.tv_shows := by
  simp only [SaveTVShowsBulk, Prod.mk.injEq] at h
  apply bulkWrite_success ShowRow.id faults
  rw [← h.1]
  exact Prod.ext rfl h.2

theorem upsert_twice {ρ κ : Type} [DecidableEq κ] (key : ρ → κ) (e : ρ → ρ)
    (hkey : ∀ r, key (e r) = key r) (rows1 rows2 t0 t1 t2 : List ρ)
    (hrows : rows1.map e = rows2.map e) (hkeys : rows1.map key = rows2.map key)
    (h1 : t1 = rows1.foldl (insertOrReplace key) t0)
    (h2 : t2 = rows2.foldl (insertOrReplace key) t1) :
    t2.map e = t1.map e ∧ t2.map key = t1.map key ∧ t2.length = t1.length ∧
      (∀ r ∈ rows1, (t1.filter (fun x => decide (key x = key r))).length = 1 ∧
        (t2.filter (fun x => decide (key x = key r))).length = 1) ∧
      (∀ x ∈ t1, key x ∈ rows1.map key → x ∈ rows1) := by
  have hmap : t2.map e = t1.map e := by
    rw [h2, map_foldl_insertOrReplace key e hkey, ← hrows, h1,
      map_foldl_insertOrReplace key e hkey, foldl_insertOrReplace_idem]
  have hk : t2.map key = t1.map key := by
    have := congrArg (List.map key) hmap
    simpa [List.map_map, Function.comp_def, hkey] using this
  refine ⟨hmap, hk, ?_, ?_, ?_⟩
  · have := congrArg List.length hmap
    simpa using this
  · intro r hr
    refine ⟨?_, ?_⟩
    · rw [h1]; exact length_filter_key_foldl key rows1 t0 r hr
    · have hr2 : key r ∈ rows2.map key := by
        rw [← hkeys]; exact List.mem_map_of_mem key hr
      obtain ⟨r2, hr2mem, hr2key⟩ := List.mem_map.mp hr2
      rw [h2, ← hr2key]
      exact length_filter_key_foldl key rows2 t1 r2 hr2mem
  · intro x hx hxk
    rw [h1, foldl_insertOrReplace_split] at hx
    rcases List.mem_append.mp hx with h | h
    · simp only [List.mem_filter, decide_eq_true_eq] at h
      exact absurd hxk h.2
    · rcases mem_foldl_insertOrReplace key rows1 [] x h with h3 | h3
      · simp at h3
      · exact h3

/-- C4: running `SaveMoviesBulk` (likewise `SaveTVShowsBulk`) a second time with
the same batch, both runs succeeding, leaves a table with the same rows apart
from `created_at`, hence the same identifiers and the same number of rows, as
the first run; after either run there is exactly one row for each identifier
of the batch, and the row stored under an identifier of the batch is a row of
the batch: a stored identifier is overwritten, never duplicated. -/
theorem C4_upsert_idempotent :
    (∀ (f1 f2 : SqlFaults MovieRow) (now1 now2 : Nat) (db db1 db2 : Database)
        (movies : List Movie),
        SaveMoviesBulk f1 now1 db movies = (db1, none) →
        SaveMoviesBulk f2 now2 db1 movies = (db2, none) →
        db2.movies.map MovieRow.withoutCreatedAt = db1.movies.map MovieRow.withoutCreatedAt ∧
          db2.movies.map MovieRow.id = db1.movies.map MovieRow.id ∧
          db2.movies.length = db1.movies.length ∧
          (∀ m ∈ movies,
            (db1.movies.filter (fun r => decide (r.id = m.ID))).length = 1 ∧
              (db2.movies.filter (fun r => decide (r.id = m.ID))).length = 1) ∧
          (∀ r ∈ db1.movies, r.id ∈ movies.map Movie.ID →
            r ∈ movies.map (movieRow now1))) ∧
    (∀ (f1 f2 : SqlFaults ShowRow) (now1 now2 : Nat) (db db1 db2 : Database)
        (shows : List TVShow),
        SaveTVShowsBulk f1 now1 db shows = (db1, none) →
        SaveTVShowsBulk f2 now2 db1 shows = (db2, none) →
        db2.tv_shows.map ShowRow.withoutCreatedAt = db1.tv_shows.map ShowRow.withoutCreatedAt ∧
          db2.tv_shows.map ShowRow.id = db1.tv_shows.map ShowRow.id ∧
          db2.tv_shows.length = db1.tv_shows.length ∧
          (∀ s ∈ shows,
            (db1.tv_shows.filter (fun r => decide (r.id = s.ID))).length = 1 ∧
              (db2.tv_shows.filter (fun r => decide (r.id = s.ID))).length = 1) ∧
          (∀ r ∈ db1.tv_shows, r.id ∈ shows.map TVShow.ID →
            r ∈ shows.map (showRow now1))) := by
  refine ⟨?_, ?_⟩
  · intro f1 f2 now1 now2 db db1 db2 movies h1 h2
    have hk : ∀ now, (movies.map (movieRow now)).map MovieRow.id = movies.map Movie.ID := by
      intro now; simp [List.map_map, Function.comp_def, movieRow]
    have key := upsert_twice MovieRow.id MovieRow.withoutCreatedAt (fun _ => rfl)
      (movies.map (movieRow now1)) (movies.map (movieRow now2)) db.movies db1.movies db2.movies
      (by simp [List.map_map, Function.comp_def, movieRow, MovieRow.withoutCreatedAt])
      (by rw [hk, hk])
      (SaveMoviesBulk_success f1 now1 db db1 movies h1)
      (SaveMoviesBulk_success f2 now2 db1 db2 movies h2)
    refine ⟨key.1, key.2.1, key.2.2.1, ?_, ?_⟩
    · intro m hm
      exact key.2.2.2.1 (movieRow now1 m) (List.mem_map_of_mem _ hm)
    · intro r hr hid
      exact key.2.2.2.2 r hr (by rw [hk]; exact hid)
  · intro f1 f2 now1 now2 db db1 db2 shows h1 h2
    have hk : ∀ now, (shows.map (showRow now)).map ShowRow.id = shows.map TVShow.ID := by
      intro now; simp [List.map_map, Function.comp_def, showRow]
    have key := upsert_twice ShowRow.id ShowRow.withoutCreatedAt (fun _ => rfl)
      (shows.map (showRow now1)) (shows.map (showRow now2)) db.tv_shows db1.tv_shows
      db2.tv_shows
      (by simp [List.map_map, Function.comp_def, showRow, ShowRow.withoutCreatedAt])
      (by rw [hk, hk])
      (SaveTVShowsBulk_success f1 now1 db db1 shows h1)
      (SaveTVShowsBulk_success f2 now2 db1 db2 shows h2)
    refine ⟨key.1, key.2.1, key.2.2.1, ?_, ?_⟩
    · intro s hs
      exact key.2.2.2.1 (showRow now1 s) (List.mem_map_of_mem _ hs)
    · intro r hr hid
      exact key.2.2.2.2 r hr (by rw [hk]; exact hid)

theorem C4_upsert_idempotent_witness :
    c4After1.movies.map MovieRow.id = [100, 2, 1] ∧
      c4After2.movies.map MovieRow.id = [100, 2, 1] ∧
      c4After2.movies.length = c4After1.movies.length ∧
      c4After2.movies.map MovieRow.withoutCreatedAt
        = c4After1.movies.map MovieRow.withoutCreatedAt := by
  have h := C4_upsert_idempotent.1 noFaults noFaults 10 20 c4Database c4After1 c4After2 c4Batch
    (by decide) (by decide)
  exact ⟨by decide, by decide, h.2.2.1, h.1⟩

/-! ### Enrichment: invariant -/

theorem countP_set_add {β : Type} (p : β → Bool) :
    ∀ (l : List β) (i : Nat) (a b : β), l[i]? = some a →
      (l.set i b).countP p + (if p a then 1 else 0)
        = l.countP p + (if p b then 1 else 0) := by
  intro l
  induction l with
  | nil => intro i a b h; simp at h
  | cons x t ih =>
    intro i a b h
    cases i with
    | zero =>
      simp at h
      subst h
      simp only [List.set_cons_zero, List.countP_cons]
      omega
    | succ k =>
      simp at h
      have := ih k a b h
      simp only [List.set_cons_succ, List.countP_cons]
      omega

theorem sum_map_set_add {β : Type} (f : β → Nat) :
    ∀ (l : List β) (i : Nat) (a b : β), l[i]? = some a →
      ((l.set i b).map f).sum + f a = (l.map f).sum + f b := by
  intro l
  induction l with
  | nil => intro i a b h; simp at h
  | cons x t ih =>
    intro i a b h
    cases i with
    | zero =>
      simp at h
      subst h
      simp only [List.set_cons_zero, List.map_cons, List.sum_cons]
      omega
    | succ k =>
      simp at h
      have := ih k a b h
      simp only [List.set_cons_succ, List.map_cons, List.sum_cons]
      omega

theorem lt_length_of_getElem? {β : Type} {l : List β} {i : Nat} {a : β}
    (h : l[i]? = some a) : i < l.length := by
  obtain ⟨hlt, _⟩ := List.getElem?_eq_some.mp h
  exact hlt

theorem inv_start {α : Type} (ops : EnrichOps α) (orig : List α) :
    Inv ops orig (start orig) where
  len := rfl
  pcsLen := rfl
  nextLe := Nat.zero_le _
  semEq := rfl
  semLe := Nat.zero_le _
  wgEq := rfl
  ent := by intro i e h; simpa [start, expectedEntry] using h
  ret := by intro h; simp [start] at h

theorem inv_spawn {α : Type} (ops : EnrichOps α) (orig : List α) (s s2 : Enrich α)
    (inv : Inv ops orig s) (h : step ops s Action.spawn = some s2) : Inv ops orig s2 := by
  simp only [step] at h
  cases hr : s.returned with
  | true => simp [hr] at h
  | false =>
    cases he : s.entries[s.next]? with
    | none => simp [hr, he] at h
    | some e =>
      simp only [hr, he, Bool.false_eq_true, if_false, Option.some.injEq] at h
      subst h
      have hlt : s.next < orig.length := by
        have := lt_length_of_getElem? he
        rw [inv.len] at this
        exact this
      have hnone : s.pcs[s.next]? = none :=
        List.getElem?_eq_none (by rw [inv.pcsLen])
      constructor
      · simp [inv.len]
      · simp [inv.pcsLen]
      · exact hlt
      · simp [List.countP_append, holdsSlot, inv.semEq]
      · exact inv.semLe
      · simp [List.countP_append, unfinished, inv.wgEq, List.countP_cons]
      · intro i e2 hi
        have hent := inv.ent i e2 hi
        by_cases hin : i = s.next
        · subst hin
          rw [hnone, he] at hent
          simp only [expectedEntry, Option.some.injEq] at hent
          have hp : (s.pcs ++ [Pc.blocked])[s.pcs.length]? = some Pc.blocked :=
            List.getElem?_concat_length _ _
          rw [inv.pcsLen] at hp
          simp only [hp, expectedEntry]
          rw [List.getElem?_set]
          simp [lt_length_of_getElem? he, hent]
        · have hp : (s.pcs ++ [Pc.blocked])[i]? = s.pcs[i]? := by
            rw [List.getElem?_append]
            split
            · rfl
            · rename_i hge
              have h1 : s.pcs.length ≤ i := by omega
              rw [List.getElem?_eq_none h1]
              have h2 : i - s.pcs.length ≠ 0 := by
                rw [inv.pcsLen] at h1 ⊢; omega
              cases hk : i - s.pcs.length with
              | zero => exact absurd hk h2
              | succ k => simp
          simp only [hp]
          rw [List.getElem?_set_ne (Ne.symm hin)]
          exact hent
      · intro hret
        simp [hr] at hret

theorem inv_acquire {α : Type} (ops : EnrichOps α) (orig : List α) (s s2 : Enrich α)
    (i : Nat) (inv : Inv ops orig s) (h : step ops s (Action.acquire i) = some s2) :
    Inv ops orig s2 := by
  simp only [step] at h
  split at h
  · rename_i hc
    obtain ⟨hpc, hsem⟩ := hc
    simp only [Option.some.injEq] at h
    subst h
    have hlt := lt_length_of_getElem? hpc
    have c1 := countP_set_add holdsSlot s.pcs i Pc.blocked Pc.resolving hpc
    have c2 := countP_set_add unfinished s.pcs i Pc.blocked Pc.resolving hpc
    simp only [holdsSlot, unfinished, if_true, Bool.false_eq_true, if_false] at c1 c2
    constructor
    · exact inv.len
    · simp [inv.pcsLen]
    · exact inv.nextLe
    · simp only; rw [inv.semEq]; omega
    · simp only; omega
    · simp only; rw [inv.wgEq]; omega
    · intro j e hj
      have hent := inv.ent j e hj
      by_cases hji : i = j
      · subst hji
        rw [hpc] at hent
        simp only [List.getElem?_set, hlt, if_true]
        simpa [expectedEntry] using hent
      · simp only [List.getElem?_set_ne hji]
        exact hent
    · exact inv.ret
  · simp at h

theorem inv_complete {α : Type} (ops : EnrichOps α) (orig : List α) (s s2 : Enrich α)
    (i : Nat) (inv : Inv ops orig s) (h : step ops s (Action.complete i) = some s2) :
    Inv ops orig s2 := by
  simp only [step] at h
  split at h
  · rename_i hpc
    cases he : s.entries[i]? with
    | none => simp [he] at h
    | some e =>
      simp only [he, Option.some.injEq] at h
      subst h
      have hlt := lt_length_of_getElem? hpc
      have hlte := lt_length_of_getElem? he
      have c1 := countP_set_add holdsSlot s.pcs i Pc.resolving Pc.resolved hpc
      have c2 := countP_set_add unfinished s.pcs i Pc.resolving Pc.resolved hpc
      simp only [holdsSlot, unfinished, if_true] at c1 c2
      constructor
      · simp [inv.len]
      · simp [inv.pcsLen]
      · exact inv.nextLe
      · simp only; rw [inv.semEq]; omega
      · exact inv.semLe
      · simp only; rw [inv.wgEq]; omega
      · intro j e2 hj
        have hent := inv.ent j e2 hj
        by_cases hji : i = j
        · subst hji
          rw [hpc, he] at hent
          simp only [expectedEntry, Option.some.injEq] at hent
          simp only [List.getElem?_set, hlt, hlte, if_true]
          simp [expectedEntry, hent]
        · simp only [List.getElem?_set_ne hji]
          exact hent
      · exact inv.ret
  · simp at h

theorem inv_release {α : Type} (ops : EnrichOps α) (orig : List α) (s s2 : Enrich α)
    (i : Nat) (inv : Inv ops orig s) (h : step ops s (Action.release i) = some s2) :
    Inv ops orig s2 := by
  simp only [step] at h
  split at h
  · rename_i hc
    obtain ⟨hpc, hsem⟩ := hc
    simp only [Option.some.injEq] at h
    subst h
    have hlt := lt_length_of_getElem? hpc
    have c1 := countP_set_add holdsSlot s.pcs i Pc.resolved Pc.released hpc
    have c2 := countP_set_add unfinished s.pcs i Pc.resolved Pc.released hpc
    simp only [holdsSlot, unfinished, if_true, Bool.false_eq_true, if_false] at c1 c2
    have hs := inv.semEq
    have hl := inv.semLe
    constructor
    · exact inv.len
    · simp [inv.pcsLen]
    · exact inv.nextLe
    · simp only; omega
    · simp only; omega
    · simp only; rw [inv.wgEq]; omega
    · intro j e hj
      have hent := inv.ent j e hj
      by_cases hji : i = j
      · subst hji
        rw [hpc] at hent
        simp only [List.getElem?_set, hlt, if_true]
        simpa [expectedEntry] using hent
      · simp only [List.getElem?_set_ne hji]
        exact hent
    · exact inv.ret
  · simp at h

theorem inv_done {α : Type} (ops : EnrichOps α) (orig : List α) (s s2 : Enrich α)
    (i : Nat) (inv : Inv ops orig s) (h : step ops s (Action.done i) = some s2) :
    Inv ops orig s2 := by
  simp only [step] at h
  split at h
  · rename_i hc
    obtain ⟨hpc, hwg⟩ := hc
    simp only [Option.some.injEq] at h
    subst h
    have hlt := lt_length_of_getElem? hpc
    have c1 := countP_set_add holdsSlot s.pcs i Pc.released Pc.finished hpc
    have c2 := countP_set_add unfinished s.pcs i Pc.released Pc.finished hpc
    simp only [holdsSlot, unfinished, if_true, Bool.false_eq_true, if_false] at c1 c2
    have hw := inv.wgEq
    constructor
    · exact inv.len
    · simp [inv.pcsLen]
    · exact inv.nextLe
    · simp only; rw [inv.semEq]; omega
    · exact inv.semLe
    · simp only; omega
    · intro j e hj
      have hent := inv.ent j e hj
      by_cases hji : i = j
      · subst hji
        rw [hpc] at hent
        simp only [List.getElem?_set, hlt, if_true]
        simpa [expectedEntry] using hent
      · simp only [List.getElem?_set_ne hji]
        exact hent
    · intro hret
      have := (inv.ret hret).2
      omega
  · simp at h

theorem inv_wait {α : Type} (ops : EnrichOps α) (orig : List α) (s s2 : Enrich α)
    (inv : Inv ops orig s) (h : step ops s Action.wait = some s2) : Inv ops orig s2 := by
  simp only [step] at h
  split at h
  · rename_i hc
    obtain ⟨hn, hwg, _⟩ := hc
    simp only [Option.some.injEq] at h
    subst h
    constructor
    · exact inv.len
    · exact inv.pcsLen
    · exact inv.nextLe
    · exact inv.semEq
    · exact inv.semLe
    · exact inv.wgEq
    · exact inv.ent
    · intro _
      exact ⟨by rw [hn, inv.len], hwg⟩
  · simp at h

theorem inv_step {α : Type} (ops : EnrichOps α) (orig : List α) (s s2 : Enrich α)
    (a : Action) (inv : Inv ops orig s) (h : step ops s a = some s2) : Inv ops orig s2 := by
  cases a with
  | spawn => exact inv_spawn ops orig s s2 inv h
  | acquire i => exact inv_acquire ops orig s s2 i inv h
  | complete i => exact inv_complete ops orig s s2 i inv h
  | release i => exact inv_release ops orig s s2 i inv h
  | done i => exact inv_done ops orig s s2 i inv h
  | wait => exact inv_wait ops orig s s2 inv h

theorem inv_run {α : Type} (ops : EnrichOps α) (orig : List α) :
    ∀ (acts : List Action) (s s2 : Enrich α), Inv ops orig s →
      run ops acts s = some s2 → Inv ops orig s2 := by
  intro acts
  induction acts with
  | nil =>
    intro s s2 inv h
    simp only [run, Option.some.injEq] at h
    rw [← h]; exact inv
  | cons a rest ih =>
    intro s s2 inv h
    simp only [run] at h
    cases hs : step ops s a with
    | none => simp [hs] at h
    | some s1 =>
      rw [hs] at h
      exact ih s1 s2 (inv_step ops orig s s1 a inv hs) h

/-! ### Enrichment: result, termination and progress -/

theorem getElem?_enrichedFrom {α : Type} (ops : EnrichOps α) :
    ∀ (l : List α) (k i : Nat),
      (enrichedFrom ops k l)[i]?
        = (l[i]?).map (fun e => applyResolution ops (k + i) (ops.decorate e)) := by
  intro l
  induction l with
  | nil => intro k i; simp [enrichedFrom]
  | cons x t ih =>
    intro k i
    cases i with
    | zero => simp [enrichedFrom]
    | succ j =>
      simp only [enrichedFrom, List.getElem?_cons_succ]
      rw [ih (k + 1) j]
      have : k + 1 + j = k + (j + 1) := by omega
      rw [this]

theorem length_enrichedFrom {α : Type} (ops : EnrichOps α) :
    ∀ (l : List α) (k : Nat), (enrichedFrom ops k l).length = l.length := by
  intro l
  induction l with
  | nil => intro k; simp [enrichedFrom]
  | cons x t ih => intro k; simp [enrichedFrom, ih]

theorem finished_of_countP_zero (pcs : List Pc) (h : pcs.countP unfinished = 0)
    (i : Nat) (pc : Pc) (hi : pcs[i]? = some pc) : pc = Pc.finished := by
  have hall := List.countP_eq_zero.mp h pc (List.mem_iff_getElem?.mpr ⟨i, hi⟩)
  cases pc <;> simp [unfinished] at hall ⊢

theorem entries_of_returned {α : Type} (ops : EnrichOps α) (orig : List α) (s : Enrich α)
    (inv : Inv ops orig s) (hret : s.returned = true) :
    s.entries = enrichedPage ops orig := by
  obtain ⟨hnext, hwg⟩ := inv.ret hret
  have hzero : s.pcs.countP unfinished = 0 := by rw [← inv.wgEq]; exact hwg
  apply List.ext_getElem?
  intro i
  unfold enrichedPage
  rw [getElem?_enrichedFrom]
  by_cases hi : i < orig.length
  · have ho : orig[i]? = some orig[i] := List.getElem?_eq_getElem hi
    have hp : i < s.pcs.length := by rw [inv.pcsLen, hnext]; exact hi
    have hpc : s.pcs[i]? = some s.pcs[i] := List.getElem?_eq_getElem hp
    have hfin := finished_of_countP_zero s.pcs hzero i _ hpc
    rw [inv.ent i _ ho, ho, hpc, hfin]
    simp [expectedEntry]
  · have h1 : s.entries[i]? = none := List.getElem?_eq_none (by rw [inv.len]; omega)
    have h2 : orig[i]? = none := List.getElem?_eq_none (by omega)
    rw [h1, h2]
    rfl

theorem enrich_eq_enrichedPage {α : Type} (ops : EnrichOps α) (orig result : List α)
    (sched : List Action) (h : enrich ops orig sched = some result) :
    result = enrichedPage ops orig := by
  unfold enrich at h
  cases hr : run ops sched (start orig) with
  | none => simp [hr] at h
  | some s =>
    rw [hr] at h
    have inv := inv_run ops orig sched (start orig) s (inv_start ops orig) hr
    cases hret : s.returned with
    | false => simp [hret] at h
    | true =>
      simp only [hret, if_true, Option.some.injEq] at h
      rw [← h]
      exact entries_of_returned ops orig s inv hret

theorem step_actionsLeft {α : Type} (ops : EnrichOps α) (s s2 : Enrich α) (a : Action)
    (h : step ops s a = some s2) : actionsLeft s2 < actionsLeft s := by
  cases a with
  | spawn =>
    simp only [step] at h
    cases hr : s.returned with
    | true => simp [hr] at h
    | false =>
      cases he : s.entries[s.next]? with
      | none => simp [hr, he] at h
      | some e =>
        simp only [hr, he, Bool.false_eq_true, if_false, Option.some.injEq] at h
        subst h
        have hlt := lt_length_of_getElem? he
        simp only [actionsLeft, List.length_set, List.map_append, List.sum_append, hr,
          List.map_cons, List.map_nil, List.sum_cons, List.sum_nil, stepsLeft]
        omega
  | acquire i =>
    simp only [step] at h
    split at h
    · rename_i hc
      simp only [Option.some.injEq] at h
      subst h
      have := sum_map_set_add stepsLeft s.pcs i Pc.blocked Pc.resolving hc.1
      simp only [stepsLeft] at this
      simp only [actionsLeft]
      omega
    · simp at h
  | complete i =>
    simp only [step] at h
    split at h
    · rename_i hc
      cases he : s.entries[i]? with
      | none => simp [he] at h
      | some e =>
        simp only [he, Option.some.injEq] at h
        subst h
        have := sum_map_set_add stepsLeft s.pcs i Pc.resolving Pc.resolved hc
        simp only [stepsLeft] at this
        simp only [actionsLeft, List.length_set]
        omega
    · simp at h
  | release i =>
    simp only [step] at h
    split at h
    · rename_i hc
      simp only [Option.some.injEq] at h
      subst h
      have := sum_map_set_add stepsLeft s.pcs i Pc.resolved Pc.released hc.1
      simp only [stepsLeft] at this
      simp only [actionsLeft]
      omega
    · simp at h
  | done i =>
    simp only [step] at h
    split at h
    · rename_i hc
      simp only [Option.some.injEq] at h
      subst h
      have := sum_map_set_add stepsLeft s.pcs i Pc.released Pc.finished hc.1
      simp only [stepsLeft] at this
      simp only [actionsLeft]
      omega
    · simp at h
  | wait =>
    simp only [step] at h
    split at h
    · rename_i hc
      simp only [Option.some.injEq] at h
      subst h
      simp only [actionsLeft, hc.2.2]
      simp
    · simp at h

theorem run_length_le {α : Type} (ops : EnrichOps α) :
    ∀ (acts : List Action) (s s2 : Enrich α), run ops acts s = some s2 →
      acts.length + actionsLeft s2 ≤ actionsLeft s := by
  intro acts
  induction acts with
  | nil =>
    intro s s2 h
    simp only [run, Option.some.injEq] at h
    rw [h]; simp
  | cons a rest ih =>
    intro s s2 h
    simp only [run] at h
    cases hs : step ops s a with
    | none => simp [hs] at h
    | some s1 =>
      rw [hs] at h
      have h1 := ih s1 s2 h
      have h2 := step_actionsLeft ops s s1 a hs
      simp only [List.length_cons]
      omega

theorem progress {α : Type} (ops : EnrichOps α) (orig : List α) (s : Enrich α)
    (inv : Inv ops orig s) (hret : s.returned = false) :
    ∃ a s2, step ops s a = some s2 := by
  by_cases h1 : ∃ i : Nat, s.pcs[i]? = some Pc.resolving
  · obtain ⟨i, hi⟩ := h1
    have hlt : i < s.entries.length := by
      have := lt_length_of_getElem? hi
      have h2 := inv.pcsLen
      have h3 := inv.nextLe
      have h4 := inv.len
      omega
    exact ⟨Action.complete i, by simp [step, hi, List.getElem?_eq_getElem hlt]⟩
  by_cases h2 : ∃ i : Nat, s.pcs[i]? = some Pc.resolved
  · obtain ⟨i, hi⟩ := h2
    have hpos : 0 < s.sem := by
      rw [inv.semEq, List.countP_pos_iff]
      exact ⟨Pc.resolved, List.mem_iff_getElem?.mpr ⟨i, hi⟩, rfl⟩
    exact ⟨Action.release i, by simp [step, hi, hpos]⟩
  by_cases h3 : ∃ i : Nat, s.pcs[i]? = some Pc.released
  · obtain ⟨i, hi⟩ := h3
    have hpos : 0 < s.wg := by
      rw [inv.wgEq, List.countP_pos_iff]
      exact ⟨Pc.released, List.mem_iff_getElem?.mpr ⟨i, hi⟩, rfl⟩
    exact ⟨Action.done i, by simp [step, hi, hpos]⟩
  by_cases h4 : ∃ i : Nat, s.pcs[i]? = some Pc.blocked
  · obtain ⟨i, hi⟩ := h4
    have hzero : s.sem = 0 := by
      rw [inv.semEq, List.countP_eq_zero]
      intro pc hpc
      obtain ⟨n, hn⟩ := List.mem_iff_getElem?.mp hpc
      cases pc with
      | resolving => exact absurd ⟨n, hn⟩ h1
      | resolved => exact absurd ⟨n, hn⟩ h2
      | blocked => simp [holdsSlot]
      | released => simp [holdsSlot]
      | finished => simp [holdsSlot]
    exact ⟨Action.acquire i, by simp [step, hi, hzero, semCap]⟩
  have hwg : s.wg = 0 := by
    rw [inv.wgEq, List.countP_eq_zero]
    intro pc hpc
    obtain ⟨n, hn⟩ := List.mem_iff_getElem?.mp hpc
    cases pc with
    | resolving => exact absurd ⟨n, hn⟩ h1
    | resolved => exact absurd ⟨n, hn⟩ h2
    | blocked => exact absurd ⟨n, hn⟩ h4
    | released => exact absurd ⟨n, hn⟩ h3
    | finished => simp [unfinished]
  by_cases h5 : s.next < s.entries.length
  · exact ⟨Action.spawn, by simp [step, hret, List.getElem?_eq_getElem h5]⟩
  · have hn : s.next = s.entries.length := by
      have h3 := inv.nextLe
      have h4 := inv.len
      omega
    exact ⟨Action.wait, by simp [step, hret, hn, hwg]⟩

theorem run_append {α : Type} (ops : EnrichOps α) :
    ∀ (acts1 acts2 : List Action) (s s1 : Enrich α), run ops acts1 s = some s1 →
      run ops (acts1 ++ acts2) s = run ops acts2 s1 := by
  intro acts1
  induction acts1 with
  | nil =>
    intro acts2 s s1 h
    simp only [run, Option.some.injEq] at h
    simp [h]
  | cons a rest ih =>
    intro acts2 s s1 h
    simp only [run, List.cons_append] at h ⊢
    cases hs : step ops s a with
    | none => simp [hs] at h
    | some s0 =>
      rw [hs] at h
      simp only
      exact ih acts2 s0 s1 h

theorem completes_within {α : Type} (ops : EnrichOps α) (orig : List α) :
    ∀ (n : Nat) (s : Enrich α), actionsLeft s ≤ n → Inv ops orig s →
      ∃ acts s2, run ops acts s = some s2 ∧ s2.returned = true := by
  intro n
  induction n with
  | zero =>
    intro s hn inv
    cases hret : s.returned with
    | true => exact ⟨[], s, rfl, hret⟩
    | false =>
      simp only [actionsLeft, hret] at hn
      simp at hn
  | succ k ih =>
    intro s hn inv
    cases hret : s.returned with
    | true => exact ⟨[], s, rfl, hret⟩
    | false =>
      obtain ⟨a, s1, hs⟩ := progress ops orig s inv hret
      have hlt := step_actionsLeft ops s s1 a hs
      obtain ⟨acts, s2, hrun, hdone⟩ := ih s1 (by omega) (inv_step ops orig s s1 a inv hs)
      exact ⟨a :: acts, s2, by simp [run, hs, hrun], hdone⟩

theorem enrich_extends {α : Type} (ops : EnrichOps α) (orig : List α)
    (acts : List Action) (s : Enrich α) (h : run ops acts (start orig) = some s) :
    ∃ more, enrich ops orig (acts ++ more) = some (enrichedPage ops orig) := by
  have inv := inv_run ops orig acts (start orig) s (inv_start ops orig) h
  obtain ⟨more, s2, hrun, hret⟩ := completes_within ops orig (actionsLeft s) s (Nat.le_refl _) inv
  refine ⟨more, ?_⟩
  have inv2 := inv_run ops orig more s s2 inv hrun
  unfold enrich
  rw [run_append ops acts more (start orig) s h, hrun]
  simp [hret, entries_of_returned ops orig s2 inv2 hret]

theorem enrich_returns {α : Type} (ops : EnrichOps α) (orig : List α) :
    ∃ sched, enrich ops orig sched = some (enrichedPage ops orig) := by
  obtain ⟨more, h⟩ := enrich_extends ops orig [] (start orig) rfl
  exact ⟨more, by simpa using h⟩

/-! ### Discovery -/

theorem getElem?_enrichedPage {α : Type} (ops : EnrichOps α) (l : List α) (i : Nat) :
    (enrichedPage ops l)[i]? = (l[i]?).map (fun e => applyResolution ops i (ops.decorate e)) := by
  unfold enrichedPage
  rw [getElem?_enrichedFrom]
  simp

theorem length_enrichedPage {α : Type} (ops : EnrichOps α) (l : List α) :
    (enrichedPage ops l).length = l.length :=
  length_enrichedFrom ops l 0

theorem DiscoverMovies_of_decodes (cfg : Config) (rt : Runtime) (client : Client)
    (clients : Nat → Client) (page : Int) (movies : List Movie) (sched : List Action)
    (h : decodesMovies cfg rt client page movies) :
    DiscoverMovies cfg rt client clients page sched
      = (enrich (movieOps cfg rt clients) movies sched).map (fun ms => (ms, none)) := by
  obtain ⟨body, response, h1, h2, h3⟩ := h
  unfold DiscoverMovies
  simp only [h1, h2, h3, ne_eq, not_true_eq_false, if_false]
  cases enrich (movieOps cfg rt clients) movies sched <;> rfl

theorem DiscoverTVShows_of_decodes (cfg : Config) (rt : Runtime) (client : Client)
    (clients : Nat → Client) (page : Int) (shows : List TVShow) (sched : List Action)
    (h : decodesShows cfg rt client page shows) :
    DiscoverTVShows cfg rt client clients page sched
      = (enrich (showOps cfg rt clients) shows sched).map (fun ms => (ms, none)) := by
  obtain ⟨body, response, h1, h2, h3⟩ := h
  unfold DiscoverTVShows
  simp only [h1, h2, h3, ne_eq, not_true_eq_false, if_false]
  cases enrich (showOps cfg rt clients) shows sched <;> rfl

theorem DiscoverMovies_result (cfg : Config) (rt : Runtime) (client : Client)
    (clients : Nat → Client) (page : Int) (movies : List Movie) (sched : List Action)
    (r : List Movie × Option GoError) (h : decodesMovies cfg rt client page movies)
    (hr : DiscoverMovies cfg rt client clients page sched = some r) :
    r = (enrichedPage (movieOps cfg rt clients) movies, none) := by
  rw [DiscoverMovies_of_decodes cfg rt client clients page movies sched h] at hr
  cases he : enrich (movieOps cfg rt clients) movies sched with
  | none => simp [he] at hr
  | some ms =>
    rw [he] at hr
    simp only [Option.map_some', Option.some.injEq] at hr
    rw [← hr, enrich_eq_enrichedPage _ _ _ _ he]

theorem DiscoverTVShows_result (cfg : Config) (rt : Runtime) (client : Client)
    (clients : Nat → Client) (page : Int) (shows : List TVShow) (sched : List Action)
    (r : List TVShow × Option GoError) (h : decodesShows cfg rt client page shows)
    (hr : DiscoverTVShows cfg rt client clients page sched = some r) :
    r = (enrichedPage (showOps cfg rt clients) shows, none) := by
  rw [DiscoverTVShows_of_decodes cfg rt client clients page shows sched h] at hr
  cases he : enrich (showOps cfg rt clients) shows sched with
  | none => simp [he] at hr
  | some ms =>
    rw [he] at hr
    simp only [Option.map_some', Option.some.injEq] at hr
    rw [← hr, enrich_eq_enrichedPage _ _ _ _ he]

theorem DiscoverMovies_returns (cfg : Config) (rt : Runtime) (client : Client)
    (clients : Nat → Client) (page : Int) (movies : List Movie)
    (h : decodesMovies cfg rt client page movies) :
    ∃ sched, DiscoverMovies cfg rt client clients page sched
      = some (enrichedPage (movieOps cfg rt clients) movies, none) := by
  obtain ⟨sched, hs⟩ := enrich_returns (movieOps cfg rt clients) movies
  exact ⟨sched, by rw [DiscoverMovies_of_decodes cfg rt client clients page movies sched h, hs]; rfl⟩

theorem DiscoverTVShows_returns (cfg : Config) (rt : Runtime) (client : Client)
    (clients : Nat → Client) (page : Int) (shows : List TVShow)
    (h : decodesShows cfg rt client page shows) :
    ∃ sched, DiscoverTVShows cfg rt client clients page sched
      = some (enrichedPage (showOps cfg rt clients) shows, none) := by
  obtain ⟨sched, hs⟩ := enrich_returns (showOps cfg rt clients) shows
  exact ⟨sched, by rw [DiscoverTVShows_of_decodes cfg rt client clients page shows sched h, hs]; rfl⟩

theorem movie_entry (cfg : Config) (rt : Runtime) (clients : Nat → Client) (i : Nat)
    (m : Movie) :
    ∃ m2, m2 = applyResolution (movieOps cfg rt clients) i ((movieOps cfg rt clients).decorate m) ∧
      m2.PosterPath = imageURL cfg m.PosterPath ∧
      m2.BackdropPath = imageURL cfg m.BackdropPath ∧
      m2.ID = m.ID ∧ m2.Title = m.Title ∧ m2.Overview = m.Overview ∧
      m2.ReleaseDate = m.ReleaseDate ∧ m2.VoteAverage = m.VoteAverage ∧
      m2.Popularity = m.Popularity ∧ m2.CreatedAt = m.CreatedAt ∧ m2.GenreIDs = m.GenreIDs ∧
      m2.TrailerURL = (if (GetMovieTrailer cfg rt (clients i) m.ID).err = none
        then (GetMovieTrailer cfg rt (clients i) m.ID).trailer else m.TrailerURL) := by
  refine ⟨_, rfl, ?_⟩
  by_cases hp : m.PosterPath = "" <;> by_cases hb : m.BackdropPath = "" <;>
    by_cases he : (GetMovieTrailer cfg rt (clients i) m.ID).err = none <;>
    simp [applyResolution, movieOps, imageURL, hp, hb, he]

theorem show_entry (cfg : Config) (rt : Runtime) (clients : Nat → Client) (i : Nat)
    (s : TVShow) :
    ∃ s2, s2 = applyResolution (showOps cfg rt clients) i ((showOps cfg rt clients).decorate s) ∧
      s2.PosterPath = imageURL cfg s.PosterPath ∧
      s2.BackdropPath = imageURL cfg s.BackdropPath ∧
      s2.ID = s.ID ∧ s2.Name = s.Name ∧ s2.Overview = s.Overview ∧
      s2.FirstAirDate = s.FirstAirDate ∧ s2.VoteAverage = s.VoteAverage ∧
      s2.Popularity = s.Popularity ∧ s2.CreatedAt = s.CreatedAt ∧ s2.GenreIDs = s.GenreIDs ∧
      s2.TrailerURL = (if (GetTVShowTrailer cfg rt (clients i) s.ID).err = none
        then (GetTVShowTrailer cfg rt (clients i) s.ID).trailer else s.TrailerURL) := by
  refine ⟨_, rfl, ?_⟩
  by_cases hp : s.PosterPath = "" <;> by_cases hb : s.BackdropPath = "" <;>
    by_cases he : (GetTVShowTrailer cfg rt (clients i) s.ID).err = none <;>
    simp [applyResolution, showOps, imageURL, hp, hb, he]

/-- C5: for every page decoded by `DiscoverMovies` or `DiscoverTVShows`, the call
returns, and in every returned list the entry of index `i` has as `PosterPath`
(likewise `BackdropPath`) the configured `ImageBaseURL` followed by the decoded
relative path when that path is non-empty and the empty string when it is
empty, whatever the trailer resolutions return and in whatever order they
complete. -/
theorem C5_image_paths :
    (∀ (cfg : Config) (rt : Runtime) (client : Client) (clients : Nat → Client) (page : Int)
        (movies : List Movie), decodesMovies cfg rt client page movies →
        (∃ sched r, DiscoverMovies cfg rt client clients page sched = some r) ∧
        ∀ sched r, DiscoverMovies cfg rt client clients page sched = some r →
          r.2 = none ∧ r.1.length = movies.length ∧
          ∀ (i : Nat) (m : Movie), movies[i]? = some m →
            (r.1[i]?).map Movie.PosterPath
                = some (if m.PosterPath = "" then "" else cfg.TMDB.ImageBaseURL ++ m.PosterPath) ∧
              (r.1[i]?).map Movie.BackdropPath
                = some (if m.BackdropPath = "" then ""
                    else cfg.TMDB.ImageBaseURL ++ m.BackdropPath)) ∧
    (∀ (cfg : Config) (rt : Runtime) (client : Client) (clients : Nat → Client) (page : Int)
        (shows : List TVShow), decodesShows cfg rt client page shows →
        (∃ sched r, DiscoverTVShows cfg rt client clients page sched = some r) ∧
        ∀ sched r, DiscoverTVShows cfg rt client clients page sched = some r →
          r.2 = none ∧ r.1.length = shows.length ∧
          ∀ (i : Nat) (s : TVShow), shows[i]? = some s →
            (r.1[i]?).map TVShow.PosterPath
                = some (if s.PosterPath = "" then "" else cfg.TMDB.ImageBaseURL ++ s.PosterPath) ∧
              (r.1[i]?).map TVShow.BackdropPath
                = some (if s.BackdropPath = "" then ""
                    else cfg.TMDB.ImageBaseURL ++ s.BackdropPath)) := by
  refine ⟨?_, ?_⟩
  · intro cfg rt client clients page movies hdec
    refine ⟨?_, ?_⟩
    · obtain ⟨sched, hs⟩ := DiscoverMovies_returns cfg rt client clients page movies hdec
      exact ⟨sched, _, hs⟩
    · intro sched r hr
      rw [DiscoverMovies_result cfg rt client clients page movies sched r hdec hr]
      refine ⟨rfl, length_enrichedPage _ _, ?_⟩
      intro i m hm
      obtain ⟨m2, hm2, hp, hb, _⟩ := movie_entry cfg rt clients i m
      simp only [getElem?_enrichedPage, hm, Option.map_some', ← hm2, hp, hb, imageURL, and_self]
  · intro cfg rt client clients page shows hdec
    refine ⟨?_, ?_⟩
    · obtain ⟨sched, hs⟩ := DiscoverTVShows_returns cfg rt client clients page shows hdec
      exact ⟨sched, _, hs⟩
    · intro sched r hr
      rw [DiscoverTVShows_result cfg rt client clients page shows sched r hdec hr]
      refine ⟨rfl, length_enrichedPage _ _, ?_⟩
      intro i s hs
      obtain ⟨s2, hs2, hp, hb, _⟩ := show_entry cfg rt clients i s
      simp only [getElem?_enrichedPage, hs, Option.map_some', ← hs2, hp, hb, imageURL, and_self]

theorem C5_image_paths_witness :
    DiscoverMovies (demoConfig "en-US") (pageRuntime twoMovies twoShows) (constClient "page")
        demoClients 1 interleaved = some (twoMoviesEnriched, none) ∧
      (twoMoviesEnriched[0]?).map Movie.PosterPath = some "https://img/p.jpg" ∧
      (twoMoviesEnriched[1]?).map Movie.PosterPath = some "" := by
  have hrun : DiscoverMovies (demoConfig "en-US") (pageRuntime twoMovies twoShows)
      (constClient "page") demoClients 1 interleaved = some (twoMoviesEnriched, none) := by
    decide
  have h := (C5_image_paths.1 (demoConfig "en-US") (pageRuntime twoMovies twoShows)
    (constClient "page") demoClients 1 twoMovies ⟨"page", _, rfl, rfl, rfl⟩).2
    interleaved (twoMoviesEnriched, none) hrun
  exact ⟨hrun, (h.2.2 0 _ rfl).1, (h.2.2 1 _ rfl).1⟩

/-- C6: for every page decoded by `DiscoverMovies` or `DiscoverTVShows`, every
outcome of the trailer resolutions and every interleaving of them, the call
returns a list of the length of the decoded list whose entry of index `i` has
the identifier of the decoded entry of index `i` and its value in every field
other than `PosterPath`, `BackdropPath` and `TrailerURL`; its `TrailerURL` is
decided by the resolution started for index `i` alone, and two interleavings
that both return give the same list. -/
theorem C6_order_preserved :
    (∀ (cfg : Config) (rt : Runtime) (client : Client) (clients : Nat → Client) (page : Int)
        (movies : List Movie), decodesMovies cfg rt client page movies →
        (∃ sched r, DiscoverMovies cfg rt client clients page sched = some r) ∧
        (∀ sched r, DiscoverMovies cfg rt client clients page sched = some r →
          r.1.length = movies.length ∧
          ∀ (i : Nat) (m : Movie), movies[i]? = some m →
            ∃ m2, r.1[i]? = some m2 ∧ m2.ID = m.ID ∧ m2.Title = m.Title ∧
              m2.Overview = m.Overview ∧ m2.ReleaseDate = m.ReleaseDate ∧
              m2.VoteAverage = m.VoteAverage ∧ m2.Popularity = m.Popularity ∧
              m2.CreatedAt = m.CreatedAt ∧ m2.GenreIDs = m.GenreIDs ∧
              m2.TrailerURL = (if (GetMovieTrailer cfg rt (clients i) m.ID).err = none
                then (GetMovieTrailer cfg rt (clients i) m.ID).trailer else m.TrailerURL)) ∧
        (∀ sched1 sched2 r1 r2,
          DiscoverMovies cfg rt client clients page sched1 = some r1 →
          DiscoverMovies cfg rt client clients page sched2 = some r2 → r1 = r2)) ∧
    (∀ (cfg : Config) (rt : Runtime) (client : Client) (clients : Nat → Client) (page : Int)
        (shows : List TVShow), decodesShows cfg rt client page shows →
        (∃ sched r, DiscoverTVShows cfg rt client clients page sched = some r) ∧
        (∀ sched r, DiscoverTVShows cfg rt client clients page sched = some r →
          r.1.length = shows.length ∧
          ∀ (i : Nat) (s : TVShow), shows[i]? = some s →
            ∃ s2, r.1[i]? = some s2 ∧ s2.ID = s.ID ∧ s2.Name = s.Name ∧
              s2.Overview = s.Overview ∧ s2.FirstAirDate = s.FirstAirDate ∧
              s2.VoteAverage = s.VoteAverage ∧ s2.Popularity = s.Popularity ∧
              s2.CreatedAt = s.CreatedAt ∧ s2.GenreIDs = s.GenreIDs ∧
              s2.TrailerURL = (if (GetTVShowTrailer cfg rt (clients i) s.ID).err = none
                then (GetTVShowTrailer cfg rt (clients i) s.ID).trailer else s.TrailerURL)) ∧
        (∀ sched1 sched2 r1 r2,
          DiscoverTVShows cfg rt client clients page sched1 = some r1 →
          DiscoverTVShows cfg rt client clients page sched2 = some r2 → r1 = r2)) := by
  refine ⟨?_, ?_⟩
  · intro cfg rt client clients page movies hdec
    refine ⟨?_, ?_, ?_⟩
    · obtain ⟨sched, hs⟩ := DiscoverMovies_returns cfg rt client clients page movies hdec
      exact ⟨sched, _, hs⟩
    · intro sched r hr
      rw [DiscoverMovies_result cfg rt client clients page movies sched r hdec hr]
      refine ⟨length_enrichedPage _ _, ?_⟩
      intro i m hm
      obtain ⟨m2, hm2, _, _, h3, h4, h5, h6, h7, h8, h9, h10, h11⟩ :=
        movie_entry cfg rt clients i m
      refine ⟨m2, ?_, h3, h4, h5, h6, h7, h8, h9, h10, h11⟩
      simp only [getElem?_enrichedPage, hm, Option.map_some', hm2]
    · intro sched1 sched2 r1 r2 h1 h2
      rw [DiscoverMovies_result cfg rt client clients page movies sched1 r1 hdec h1,
        DiscoverMovies_result cfg rt client clients page movies sched2 r2 hdec h2]
  · intro cfg rt client clients page shows hdec
    refine ⟨?_, ?_, ?_⟩
    · obtain ⟨sched, hs⟩ := DiscoverTVShows_returns cfg rt client clients page shows hdec
      exact ⟨sched, _, hs⟩
    · intro sched r hr
      rw [DiscoverTVShows_result cfg rt client clients page shows sched r hdec hr]
      refine ⟨length_enrichedPage _ _, ?_⟩
      intro i s hs
      obtain ⟨s2, hs2, _, _, h3, h4, h5, h6, h7, h8, h9, h10, h11⟩ :=
        show_entry cfg rt clients i s
      refine ⟨s2, ?_, h3, h4, h5, h6, h7, h8, h9, h10, h11⟩
      simp only [getElem?_enrichedPage, hs, Option.map_some', hs2]
    · intro sched1 sched2 r1 r2 h1 h2
      rw [DiscoverTVShows_result cfg rt client clients page shows sched1 r1 hdec h1,
        DiscoverTVShows_result cfg rt client clients page shows sched2 r2 hdec h2]

theorem C6_order_preserved_witness :
    DiscoverTVShows (demoConfig "en-US") (pageRuntime twoMovies twoShows) (constClient "page")
        demoClients 1 interleaved = some (twoShowsEnriched, none) ∧
      DiscoverTVShows (demoConfig "en-US") (pageRuntime twoMovies twoShows) (constClient "page")
        demoClients 1 (sequential 2) = some (twoShowsEnriched, none) ∧
      twoShowsEnriched.length = twoShows.length ∧
      twoShowsEnriched.map TVShow.ID = [1, 2] := by
  have h1 : DiscoverTVShows (demoConfig "en-US") (pageRuntime twoMovies twoShows)
      (constClient "page") demoClients 1 interleaved = some (twoShowsEnriched, none) := by
    decide
  have h2 : DiscoverTVShows (demoConfig "en-US") (pageRuntime twoMovies twoShows)
      (constClient "page") demoClients 1 (sequential 2) = some (twoShowsEnriched, none) := by
    decide
  have h := (C6_order_preserved.2 (demoConfig "en-US") (pageRuntime twoMovies twoShows)
    (constClient "page") demoClients 1 twoShows ⟨"page", _, rfl, rfl, rfl⟩).2.1
    interleaved (twoShowsEnriched, none) h1
  exact ⟨h1, h2, h.1, by decide⟩

/-- C7, counterexample: the second entry of the decoded page `twoMovies` carries
the trailer URL `"kept"`, its resolution returns an error, and the entry comes
back from `DiscoverMovies` with the trailer URL `"kept"`, not the empty string. -/
theorem C7_failed_entry_not_empty :
    decodesMovies (demoConfig "en-US") (pageRuntime twoMovies twoShows) (constClient "page") 1
        twoMovies ∧
      (GetMovieTrailer (demoConfig "en-US") (pageRuntime twoMovies twoShows)
        (demoClients 1) 2).err = some "timeout" ∧
      DiscoverMovies (demoConfig "en-US") (pageRuntime twoMovies twoShows) (constClient "page")
        demoClients 1 (sequential 2) = some (twoMoviesEnriched, none) ∧
      (twoMoviesEnriched[1]?).map Movie.TrailerURL = some "kept" ∧
      (twoMoviesEnriched[1]?).map Movie.TrailerURL ≠ some "" := by
  refine ⟨⟨"page", _, rfl, rfl, rfl⟩, ?_, ?_, ?_, ?_⟩ <;> decide

/-- C7, amended: for every page decoded by `DiscoverMovies` or `DiscoverTVShows`
and every assignment of trailer-resolution outcomes to its entries, the call
returns the whole page with a nil error, also when some or all resolutions
return an error; an entry whose resolution returned an error keeps the
`TrailerURL` it was decoded with; an entry whose resolution returned no error
gets the trailer of its resolution; and the returned entry of index `i` is
the same under every other assignment that gives index `i` the same client. -/
theorem C7_failures_isolated :
    (∀ (cfg : Config) (rt : Runtime) (client : Client) (clients : Nat → Client) (page : Int)
        (movies : List Movie), decodesMovies cfg rt client page movies →
        (∃ sched r, DiscoverMovies cfg rt client clients page sched = some r) ∧
        (∀ sched r, DiscoverMovies cfg rt client clients page sched = some r →
          r.2 = none ∧ r.1.length = movies.length ∧
          ∀ (i : Nat) (m : Movie), movies[i]? = some m →
            ((GetMovieTrailer cfg rt (clients i) m.ID).err ≠ none →
              (r.1[i]?).map Movie.TrailerURL = some m.TrailerURL) ∧
            ((GetMovieTrailer cfg rt (clients i) m.ID).err = none →
              (r.1[i]?).map Movie.TrailerURL
                = some (GetMovieTrailer cfg rt (clients i) m.ID).trailer) ∧
            (∀ (clients2 : Nat → Client) sched2 r2, clients2 i = clients i →
              DiscoverMovies cfg rt client clients2 page sched2 = some r2 →
              r2.1[i]? = r.1[i]?))) ∧
    (∀ (cfg : Config) (rt : Runtime) (client : Client) (clients : Nat → Client) (page : Int)
        (shows : List TVShow), decodesShows cfg rt client page shows →
        (∃ sched r, DiscoverTVShows cfg rt client clients page sched = some r) ∧
        (∀ sched r, DiscoverTVShows cfg rt client clients page sched = some r →
          r.2 = none ∧ r.1.length = shows.length ∧
          ∀ (i : Nat) (s : TVShow), shows[i]? = some s →
            ((GetTVShowTrailer cfg rt (clients i) s.ID).err ≠ none →
              (r.1[i]?).map TVShow.TrailerURL = some s.TrailerURL) ∧
            ((GetTVShowTrailer cfg rt (clients i) s.ID).err = none →
              (r.1[i]?).map TVShow.TrailerURL
                = some (GetTVShowTrailer cfg rt (clients i) s.ID).trailer) ∧
            (∀ (clients2 : Nat → Client) sched2 r2, clients2 i = clients i →
              DiscoverTVShows cfg rt client clients2 page sched2 = some r2 →
              r2.1[i]? = r.1[i]?))) := by
  refine ⟨?_, ?_⟩
  · intro cfg rt client clients page movies hdec
    refine ⟨?_, ?_⟩
    · obtain ⟨sched, hs⟩ := DiscoverMovies_returns cfg rt client clients page movies hdec
      exact ⟨sched, _, hs⟩
    · intro sched r hr
      rw [DiscoverMovies_result cfg rt client clients page movies sched r hdec hr]
      refine ⟨rfl, length_enrichedPage _ _, ?_⟩
      intro i m hm
      obtain ⟨m2, hm2, _, _, _, _, _, _, _, _, _, _, ht⟩ := movie_entry cfg rt clients i m
      refine ⟨?_, ?_, ?_⟩
      · intro he
        simp only [getElem?_enrichedPage, hm, Option.map_some', ← hm2, ht, he, if_false]
      · intro he
        simp only [getElem?_enrichedPage, hm, Option.map_some', ← hm2, ht, he, if_true]
      · intro clients2 sched2 r2 hcl hr2
        rw [DiscoverMovies_result cfg rt client clients2 page movies sched2 r2 hdec hr2]
        simp only [getElem?_enrichedPage, hm, Option.map_some', applyResolution, movieOps, hcl]
  · intro cfg rt client clients page shows hdec
    refine ⟨?_, ?_⟩
    · obtain ⟨sched, hs⟩ := DiscoverTVShows_returns cfg rt client clients page shows hdec
      exact ⟨sched, _, hs⟩
    · intro sched r hr
      rw [DiscoverTVShows_result cfg rt client clients page shows sched r hdec hr]
      refine ⟨rfl, length_enrichedPage _ _, ?_⟩
      intro i s hs
      obtain ⟨s2, hs2, _, _, _, _, _, _, _, _, _, _, ht⟩ := show_entry cfg rt clients i s
      refine ⟨?_, ?_, ?_⟩
      · intro he
        simp only [getElem?_enrichedPage, hs, Option.map_some', ← hs2, ht, he, if_false]
      · intro he
        simp only [getElem?_enrichedPage, hs, Option.map_some', ← hs2, ht, he, if_true]
      · intro clients2 sched2 r2 hcl hr2
        rw [DiscoverTVShows_result cfg rt client clients2 page shows sched2 r2 hdec hr2]
        simp only [getElem?_enrichedPage, hs, Option.map_some', applyResolution, showOps, hcl]

theorem C7_failures_isolated_witness :
    DiscoverMovies (demoConfig "en-US") (pageRuntime twoMovies twoShows) (constClient "page")
        (fun _ _ => HttpOutcome.getFailed "down") 1 (sequential 2)
        = some ([{ mkMovie 1 "a" with PosterPath := "https://img/p.jpg" },
                 { mkMovie 2 "b" with BackdropPath := "https://img/b.jpg",
                                      TrailerURL := "kept" }], none) ∧
      (GetMovieTrailer (demoConfig "en-US") (pageRuntime twoMovies twoShows)
        (fun _ => HttpOutcome.getFailed "down") 1).err ≠ none ∧
      ([{ mkMovie 1 "a" with PosterPath := "https://img/p.jpg" },
        { mkMovie 2 "b" with BackdropPath := "https://img/b.jpg",
                             TrailerURL := "kept" }][0]?).map Movie.TrailerURL = some "" := by
  have hrun : DiscoverMovies (demoConfig "en-US") (pageRuntime twoMovies twoShows)
      (constClient "page") (fun _ _ => HttpOutcome.getFailed "down") 1 (sequential 2)
      = some ([{ mkMovie 1 "a" with PosterPath := "https://img/p.jpg" },
               { mkMovie 2 "b" with BackdropPath := "https://img/b.jpg",
                                    TrailerURL := "kept" }], none) := by decide
  have herr : (GetMovieTrailer (demoConfig "en-US") (pageRuntime twoMovies twoShows)
      (fun _ => HttpOutcome.getFailed "down") 1).err ≠ none := by decide
  have h := (C7_failures_isolated.1 (demoConfig "en-US") (pageRuntime twoMovies twoShows)
    (constClient "page") (fun _ _ => HttpOutcome.getFailed "down") 1 twoMovies
    ⟨"page", _, rfl, rfl, rfl⟩).2 (sequential 2) _ hrun
  exact ⟨hrun, herr, (h.2.2 0 _ rfl).1 herr⟩

/-! ### Status check -/

theorem apiError_sixth (status : Int) (body : String) :
    (apiError status body).data[5]? = some 'n' := by
  have hlen : 5 < ("erro na API (status " : String).data.length := by decide
  simp only [apiError, String.data_append, List.append_assoc]
  rw [List.getElem?_append_left hlen]
  decide

theorem not_isAPIError_of_sixth (lit rest : String) (hlit : lit.data[5]? = some 'a') :
    ¬ isAPIError (some (lit ++ rest)) := by
  rintro ⟨status, body, h⟩
  have h1 : (lit ++ rest).data[5]? = some 'a' := by
    rw [String.data_append, List.getElem?_append_left (lt_length_of_getElem? hlit)]
    exact hlit
  rw [Option.some.inj h, apiError_sixth] at h1
  exact absurd h1 (by decide)

theorem not_isAPIError_none : ¬ isAPIError none := by
  rintro ⟨status, body, h⟩
  cases h

/-- C9, amended: for every response whose body was read, `SearchMovies`,
`SearchTVShows`, `FetchMovieGenres`, `FetchTVShowGenres`, `DiscoverMovies` and
`DiscoverTVShows` fail with the API error if and only if the HTTP status is
not 200; when they do, they return no entries and the error whose message is
"erro na API (status ", the decimal status code, "): " and the raw body
unchanged, and the result is the same under every JSON decoder: the body is
not decoded. -/
theorem C9_status_check :
    (∀ (cfg : Config) (rt : Runtime) (client : Client) (query : String) (page : Int)
        (status : Int) (body : String),
        client (searchMoviesURL cfg rt query page) = .response status body →
        (status ≠ StatusOK →
          SearchMovies cfg rt client query page
            = ([], some ("erro na API (status " ++ toString status ++ "): " ++ body))) ∧
        (isAPIError (SearchMovies cfg rt client query page).2 ↔ status ≠ StatusOK) ∧
        (status ≠ StatusOK → ∀ rt2 : Runtime, rt2.queryEscape = rt.queryEscape →
          SearchMovies cfg rt2 client query page
            = SearchMovies cfg rt client query page)) ∧
    (∀ (cfg : Config) (rt : Runtime) (client : Client) (query : String) (page : Int)
        (status : Int) (body : String),
        client (searchTVShowsURL cfg rt query page) = .response status body →
        (status ≠ StatusOK →
          SearchTVShows cfg rt client query page
            = ([], some ("erro na API (status " ++ toString status ++ "): " ++ body))) ∧
        (isAPIError (SearchTVShows cfg rt client query page).2 ↔ status ≠ StatusOK) ∧
        (status ≠ StatusOK → ∀ rt2 : Runtime, rt2.queryEscape = rt.queryEscape →
          SearchTVShows cfg rt2 client query page
            = SearchTVShows cfg rt client query page)) ∧
    (∀ (cfg : Config) (rt : Runtime) (client : Client)
        (status : Int) (body : String),
        client (movieGenresURL cfg) = .response status body →
        (status ≠ StatusOK →
          FetchMovieGenres cfg rt client
            = ([], some ("erro na API (status " ++ toString status ++ "): " ++ body))) ∧
        (isAPIError (FetchMovieGenres cfg rt client).2 ↔ status ≠ StatusOK) ∧
        (status ≠ StatusOK → ∀ rt2 : Runtime, FetchMovieGenres cfg rt2 client
            = FetchMovieGenres cfg rt client)) ∧
    (∀ (cfg : Config) (rt : Runtime) (client : Client)
        (status : Int) (body : String),
        client (showGenresURL cfg) = .response status body →
        (status ≠ StatusOK →
          FetchTVShowGenres cfg rt client
            = ([], some ("erro na API (status " ++ toString status ++ "): " ++ body))) ∧
        (isAPIError (FetchTVShowGenres cfg rt client).2 ↔ status ≠ StatusOK) ∧
        (status ≠ StatusOK → ∀ rt2 : Runtime, FetchTVShowGenres cfg rt2 client
            = FetchTVShowGenres cfg rt client)) ∧
    (∀ (cfg : Config) (rt : Runtime) (client : Client) (clients : Nat → Client) (page : Int)
        (sched : List Action) (status : Int) (body : String),
        client (discoverMoviesURL cfg page) = .response status body →
        (status ≠ StatusOK →
          DiscoverMovies cfg rt client clients page sched
            = some ([], some ("erro na API (status " ++ toString status ++ "): " ++ body))) ∧
        (∀ r, DiscoverMovies cfg rt client clients page sched = some r →
          (isAPIError r.2 ↔ status ≠ StatusOK)) ∧
        (status ≠ StatusOK → ∀ rt2 : Runtime,
          DiscoverMovies cfg rt2 client clients page sched
            = DiscoverMovies cfg rt client clients page sched)) ∧
    (∀ (cfg : Config) (rt : Runtime) (client : Client) (clients : Nat → Client) (page : Int)
        (sched : List Action) (status : Int) (body : String),
        client (discoverTVShowsURL cfg page) = .response status body →
        (status ≠ StatusOK →
          DiscoverTVShows cfg rt client clients page sched
            = some ([], some ("erro na API (status " ++ toString status ++ "): " ++ body))) ∧
        (∀ r, DiscoverTVShows cfg rt client clients page sched = some r →
          (isAPIError r.2 ↔ status ≠ StatusOK)) ∧
        (status ≠ StatusOK → ∀ rt2 : Runtime,
          DiscoverTVShows cfg rt2 client clients page sched
            = DiscoverTVShows cfg rt client clients page sched)) := by
  refine ⟨?_, ?_, ?_, ?_, ?_, ?_⟩
  · intro cfg rt client query page status body h
    by_cases hs : status = StatusOK
    · subst hs
      refine ⟨fun hne => absurd rfl hne, ⟨?_, fun hne => absurd rfl hne⟩,
        fun hne => absurd rfl hne⟩
      intro hapi
      exfalso
      simp only [SearchMovies, h, ne_eq, not_true_eq_false, if_false] at hapi
      cases h1 : rt.unmarshalResponse body with
      | error e =>
        simp only [h1] at hapi
        exact not_isAPIError_of_sixth "erro ao decodificar resposta: " e (by decide) hapi
      | ok response =>
        simp only [h1] at hapi
        cases h2 : rt.unmarshalMovies response.Results with
        | error e =>
          simp only [h2] at hapi
          exact not_isAPIError_of_sixth "erro ao decodificar filmes: " e (by decide) hapi
        | ok entries =>
          simp only [h2] at hapi
          exact not_isAPIError_none hapi
    · have hF : SearchMovies cfg rt client query page
          = ([], some ("erro na API (status " ++ toString status ++ "): " ++ body)) := by
        simp only [SearchMovies, h, hs, ne_eq, not_false_eq_true, if_true, apiError]
      refine ⟨fun _ => hF, ?_, ?_⟩
      · rw [hF]
        exact ⟨fun _ => hs, fun _ => ⟨status, body, rfl⟩⟩
      · intro _ rt2 hq
        have hu : searchMoviesURL cfg rt2 query page = searchMoviesURL cfg rt query page := by
          simp only [searchMoviesURL, hq]
        rw [hF]
        simp only [SearchMovies, hu, h, hs, ne_eq, not_false_eq_true, if_true, apiError]
  · intro cfg rt client query page status body h
    by_cases hs : status = StatusOK
    · subst hs
      refine ⟨fun hne => absurd rfl hne, ⟨?_, fun hne => absurd rfl hne⟩,
        fun hne => absurd rfl hne⟩
      intro hapi
      exfalso
      simp only [SearchTVShows, h, ne_eq, not_true_eq_false, if_false] at hapi
      cases h1 : rt.unmarshalResponse body with
      | error e =>
        simp only [h1] at hapi
        exact not_isAPIError_of_sixth "erro ao decodificar resposta: " e (by decide) hapi
      | ok response =>
        simp only [h1] at hapi
        cases h2 : rt.unmarshalShows response.Results with
        | error e =>
          simp only [h2] at hapi
          exact not_isAPIError_of_sixth "erro ao decodificar séries: " e (by decide) hapi
        | ok entries =>
          simp only [h2] at hapi
          exact not_isAPIError_none hapi
    · have hF : SearchTVShows cfg rt client query page
          = ([], some ("erro na API (status " ++ toString status ++ "): " ++ body)) := by
        simp only [SearchTVShows, h, hs, ne_eq, not_false_eq_true, if_true, apiError]
      refine ⟨fun _ => hF, ?_, ?_⟩
      · rw [hF]
        exact ⟨fun _ => hs, fun _ => ⟨status, body, rfl⟩⟩
      · intro _ rt2 hq
        have hu : searchTVShowsURL cfg rt2 query page = searchTVShowsURL cfg rt query page := by
          simp only [searchTVShowsURL, hq]
        rw [hF]
        simp only [SearchTVShows, hu, h, hs, ne_eq, not_false_eq_true, if_true, apiError]
  · intro cfg rt client status body h
    by_cases hs : status = StatusOK
    · subst hs
      refine ⟨fun hne => absurd rfl hne, ⟨?_, fun hne => absurd rfl hne⟩,
        fun hne => absurd rfl hne⟩
      intro hapi
      exfalso
      simp only [FetchMovieGenres, h, ne_eq, not_true_eq_false, if_false] at hapi
      cases h1 : rt.unmarshalGenres body with
      | error e =>
        simp only [h1] at hapi
        exact not_isAPIError_of_sixth "erro ao decodificar gêneros: " e (by decide) hapi
      | ok result =>
        simp only [h1] at hapi
        exact not_isAPIError_none hapi
    · have hF : FetchMovieGenres cfg rt client
          = ([], some ("erro na API (status " ++ toString status ++ "): " ++ body)) := by
        simp only [FetchMovieGenres, h, hs, ne_eq, not_false_eq_true, if_true, apiError]
      refine ⟨fun _ => hF, ?_, ?_⟩
      · rw [hF]
        exact ⟨fun _ => hs, fun _ => ⟨status, body, rfl⟩⟩
      · intro _ rt2
        rw [hF]
        simp only [FetchMovieGenres, h, hs, ne_eq, not_false_eq_true, if_true, apiError]
  · intro cfg rt client status body h
    by_cases hs : status = StatusOK
    · subst hs
      refine ⟨fun hne => absurd rfl hne, ⟨?_, fun hne => absurd rfl hne⟩,
        fun hne => absurd rfl hne⟩
      intro hapi
      exfalso
      simp only [FetchTVShowGenres, h, ne_eq, not_true_eq_false, if_false] at hapi
      cases h1 : rt.unmarshalGenres body with
      | error e =>
        simp only [h1] at hapi
        exact not_isAPIError_of_sixth "erro ao decodificar gêneros: " e (by decide) hapi
      | ok result =>
        simp only [h1] at hapi
        exact not_isAPIError_none hapi
    · have hF : FetchTVShowGenres cfg rt client
          = ([], some ("erro na API (status " ++ toString status ++ "): " ++ body)) := by
        simp only [FetchTVShowGenres, h, hs, ne_eq, not_false_eq_true, if_true, apiError]
      refine ⟨fun _ => hF, ?_, ?_⟩
      · rw [hF]
        exact ⟨fun _ => hs, fun _ => ⟨status, body, rfl⟩⟩
      · intro _ rt2
        rw [hF]
        simp only [FetchTVShowGenres, h, hs, ne_eq, not_false_eq_true, if_true, apiError]
  · intro cfg rt client clients page sched status body h
    by_cases hs : status = StatusOK
    · subst hs
      refine ⟨fun hne => absurd rfl hne, ?_, fun hne => absurd rfl hne⟩
      intro r hr
      refine ⟨?_, fun hne => absurd rfl hne⟩
      intro hapi
      exfalso
      simp only [DiscoverMovies, h, ne_eq, not_true_eq_false, if_false] at hr
      cases h1 : rt.unmarshalResponse body with
      | error e =>
        simp only [h1, Option.some.injEq] at hr
        rw [← hr] at hapi
        exact not_isAPIError_of_sixth "erro ao decodificar resposta: " e (by decide) hapi
      | ok response =>
        simp only [h1] at hr
        cases h2 : rt.unmarshalMovies response.Results with
        | error e =>
          simp only [h2, Option.some.injEq] at hr
          rw [← hr] at hapi
          exact not_isAPIError_of_sixth "erro ao decodificar filmes: " e (by decide) hapi
        | ok entries =>
          simp only [h2] at hr
          cases h3 : enrich (movieOps cfg rt clients) entries sched with
          | none => simp [h3] at hr
          | some enriched =>
            simp only [h3, Option.some.injEq] at hr
            rw [← hr] at hapi
            exact not_isAPIError_none hapi
    · have hF : DiscoverMovies cfg rt client clients page sched
          = some ([], some ("erro na API (status " ++ toString status ++ "): " ++ body)) := by
        simp only [DiscoverMovies, h, hs, ne_eq, not_false_eq_true, if_true, apiError]
      refine ⟨fun _ => hF, ?_, ?_⟩
      · intro r hr
        rw [hF] at hr
        rw [← Option.some.inj hr]
        exact ⟨fun _ => hs, fun _ => ⟨status, body, rfl⟩⟩
      · intro _ rt2
        rw [hF]
        simp only [DiscoverMovies, h, hs, ne_eq, not_false_eq_true, if_true, apiError]
  · intro cfg rt client clients page sched status body h
    by_cases hs : status = StatusOK
    · subst hs
      refine ⟨fun hne => absurd rfl hne, ?_, fun hne => absurd rfl hne⟩
      intro r hr
      refine ⟨?_, fun hne => absurd rfl hne⟩
      intro hapi
      exfalso
      simp only [DiscoverTVShows, h, ne_eq, not_true_eq_false, if_false] at hr
      cases h1 : rt.unmarshalResponse body with
      | error e =>
        simp only [h1, Option.some.injEq] at hr
        rw [← hr] at hapi
        exact not_isAPIError_of_sixth "erro ao decodificar resposta: " e (by decide) hapi
      | ok response =>
        simp only [h1] at hr
        cases h2 : rt.unmarshalShows response.Results with
        | error e =>
          simp only [h2, Option.some.injEq] at hr
          rw [← hr] at hapi
          exact not_isAPIError_of_sixth "erro ao decodificar séries: " e (by decide) hapi
        | ok entries =>
          simp only [h2] at hr
          cases h3 : enrich (showOps cfg rt clients) entries sched with
          | none => simp [h3] at hr
          | some enriched =>
            simp only [h3, Option.some.injEq] at hr
            rw [← hr] at hapi
            exact not_isAPIError_none hapi
    · have hF : DiscoverTVShows cfg rt client clients page sched
          = some ([], some ("erro na API (status " ++ toString status ++ "): " ++ body)) := by
        simp only [DiscoverTVShows, h, hs, ne_eq, not_false_eq_true, if_true, apiError]
      refine ⟨fun _ => hF, ?_, ?_⟩
      · intro r hr
        rw [hF] at hr
        rw [← Option.some.inj hr]
        exact ⟨fun _ => hs, fun _ => ⟨status, body, rfl⟩⟩
      · intro _ rt2
        rw [hF]
        simp only [DiscoverTVShows, h, hs, ne_eq, not_false_eq_true, if_true, apiError]

/-- C9, counterexample: the status 204 is a 2xx status, yet on a response with
status 204 whose body was read `SearchMovies`, `FetchMovieGenres` and
`DiscoverMovies` fail with the API error. -/
theorem C9_status_204_rejected :
    isSuccessStatus 204 ∧
      SearchMovies (demoConfig "en-US") demoRuntime (statusClient 204 "ok") "q" 1
        = ([], some "erro na API (status 204): ok") ∧
      isAPIError (SearchMovies (demoConfig "en-US") demoRuntime (statusClient 204 "ok") "q" 1).2 ∧
      FetchMovieGenres (demoConfig "en-US") demoRuntime (statusClient 204 "ok")
        = ([], some "erro na API (status 204): ok") ∧
      DiscoverMovies (demoConfig "en-US") demoRuntime (statusClient 204 "ok") demoClients 1 []
        = some ([], some "erro na API (status 204): ok") := by
  refine ⟨by unfold isSuccessStatus; decide, by decide, ⟨204, "ok", by decide⟩, by decide,
    by decide⟩

theorem C9_status_check_witness :
    SearchTVShows (demoConfig "en-US") demoRuntime (statusClient 404 "not found") "q" 1
        = ([], some "erro na API (status 404): not found") ∧
      FetchTVShowGenres (demoConfig "en-US") demoRuntime (statusClient 500 "oops")
        = ([], some "erro na API (status 500): oops") := by
  have h1 := (C9_status_check.2.1 (demoConfig "en-US") demoRuntime (statusClient 404 "not found")
    "q" 1 404 "not found" rfl).1 (by decide)
  have h2 := (C9_status_check.2.2.2.1 (demoConfig "en-US") demoRuntime (statusClient 500 "oops")
    500 "oops" rfl).1 (by decide)
  exact ⟨h1, h2⟩

/-! ### Admission gate -/

theorem gate_respected {α : Type} (ops : EnrichOps α) (orig : List α) (s : Enrich α)
    (inv : Inv ops orig s) : GateRespected ops orig s := by
  have hfl : inFlight s ≤ s.sem := by
    rw [inv.semEq]
    unfold inFlight
    rw [List.count_eq_countP]
    apply List.countP_mono_left
    intro pc _ hpc
    have : pc = Pc.resolving := by simpa using hpc
    rw [this]; rfl
  have hle := inv.semLe
  refine ⟨by omega, hfl, hle, ?_, ?_, ?_, ?_⟩
  · intro i s2 h
    simp only [step] at h
    split at h
    · rename_i hc
      simp only [Option.some.injEq] at h
      subst h
      refine ⟨hc.2, hc.1, ?_, rfl⟩
      simp [List.getElem?_set, lt_length_of_getElem? hc.1]
    · simp at h
  · intro i s2 h
    simp only [step] at h
    split at h
    · rename_i hc; exact hc
    · simp at h
  · intro i hi
    have hlt : i < s.entries.length := by
      have := lt_length_of_getElem? hi
      have h2 := inv.pcsLen
      have h3 := inv.nextLe
      have h4 := inv.len
      omega
    have hpos : 0 < s.sem := by
      rw [inv.semEq, List.countP_pos_iff]
      exact ⟨Pc.resolving, List.mem_iff_getElem?.mpr ⟨i, hi⟩, rfl⟩
    have hset : (s.pcs.set i Pc.resolved)[i]? = some Pc.resolved := by
      simp [List.getElem?_set, lt_length_of_getElem? hi]
    refine ⟨{ s with entries := s.entries.set i (applyResolution ops i s.entries[i]),
                     pcs := s.pcs.set i Pc.resolved },
      { s with entries := s.entries.set i (applyResolution ops i s.entries[i]),
               pcs := (s.pcs.set i Pc.resolved).set i Pc.released,
               sem := s.sem - 1 }, ?_, ?_, ?_, ?_⟩
    · simp only [step, hi, if_true, List.getElem?_eq_getElem hlt]
    · simp only [step, hset, hpos, and_self, if_true]
    · simp only; omega
    · simp [List.getElem?_set, lt_length_of_getElem? hi]
  · intro hret
    obtain ⟨hnext, hwg⟩ := inv.ret hret
    refine ⟨by rw [inv.pcsLen, hnext], ?_⟩
    intro pc hpc
    obtain ⟨n, hn⟩ := List.mem_iff_getElem?.mp hpc
    exact finished_of_countP_zero s.pcs (by rw [← inv.wgEq]; exact hwg) n pc hn

theorem actionsLeft_start {α : Type} (orig : List α) :
    actionsLeft (start orig) = 5 * orig.length + 1 := by
  simp [actionsLeft, start]

theorem gate_of_run {α : Type} (ops : EnrichOps α) (orig : List α) (acts : List Action)
    (s : Enrich α) (h : run ops acts (start orig) = some s) :
    GateRespected ops orig s ∧ acts.length ≤ 5 * orig.length + 1 ∧
      ∃ more, enrich ops orig (acts ++ more) = some (enrichedPage ops orig) := by
  refine ⟨gate_respected ops orig s (inv_run ops orig acts _ s (inv_start ops orig) h), ?_,
    enrich_extends ops orig acts s h⟩
  have := run_length_le ops acts (start orig) s h
  rw [actionsLeft_start] at this
  omega

/-- C10: in every state reachable in the enrichment of one page by
`DiscoverMovies` or `DiscoverTVShows`, whatever the number of entries, at most
10 trailer resolutions are in flight; a resolution starts only by taking a
slot of `sem`, which is possible only while fewer than 10 are held; a
resolution in flight can complete, whatever it returns, and then gives its
slot back; `wg.Wait()` has returned only if every entry has a finished
goroutine; and every execution is bounded and can be continued until the
call returns. -/
theorem C10_admission_gate :
    (∀ (cfg : Config) (rt : Runtime) (clients : Nat → Client) (movies : List Movie)
        (acts : List Action) (s : Enrich Movie),
        run (movieOps cfg rt clients) acts (start movies) = some s →
        GateRespected (movieOps cfg rt clients) movies s ∧
          acts.length ≤ 5 * movies.length + 1 ∧
          ∃ more, enrich (movieOps cfg rt clients) movies (acts ++ more)
            = some (enrichedPage (movieOps cfg rt clients) movies)) ∧
    (∀ (cfg : Config) (rt : Runtime) (clients : Nat → Client) (shows : List TVShow)
        (acts : List Action) (s : Enrich TVShow),
        run (showOps cfg rt clients) acts (start shows) = some s →
        GateRespected (showOps cfg rt clients) shows s ∧
          acts.length ≤ 5 * shows.length + 1 ∧
          ∃ more, enrich (showOps cfg rt clients) shows (acts ++ more)
            = some (enrichedPage (showOps cfg rt clients) shows)) := by
  refine ⟨?_, ?_⟩
  · intro cfg rt clients movies acts s h
    exact gate_of_run _ movies acts s h
  · intro cfg rt clients shows acts s h
    exact gate_of_run _ shows acts s h

theorem C10_admission_gate_witness :
    ∃ s, run (movieOps (demoConfig "en-US") demoRuntime demoClients) tenInFlight
          (start movies25) = some s ∧
      movies25.length = 25 ∧ inFlight s = 10 ∧ inFlight s ≤ semCap ∧
      step (movieOps (demoConfig "en-US") demoRuntime demoClients) s (Action.acquire 10)
        = none := by
  have hlen : movies25.length = 25 := by decide
  have h10 : (run (movieOps (demoConfig "en-US") demoRuntime demoClients) tenInFlight
      (start movies25)).map inFlight = some 10 := by decide
  have hfull : ((run (movieOps (demoConfig "en-US") demoRuntime demoClients) tenInFlight
      (start movies25)).bind (fun s =>
        step (movieOps (demoConfig "en-US") demoRuntime demoClients) s
          (Action.acquire 10))).isSome = false := by decide
  cases hrun : run (movieOps (demoConfig "en-US") demoRuntime demoClients) tenInFlight
      (start movies25) with
  | none => rw [hrun] at h10; simp at h10
  | some s =>
    rw [hrun] at h10 hfull
    have hg := (C10_admission_gate.1 (demoConfig "en-US") demoRuntime demoClients movies25
      tenInFlight s hrun).1
    refine ⟨s, rfl, hlen, by simpa using h10, hg.1, ?_⟩
    simpa using hfull

/-! ### Catalog search -/

theorem SearchMovies_paths (cfg : Config) (rt : Runtime) (client : Client) (query : String)
    (page : Int) (body : String) (response : TMDBResponse) (movies : List Movie)
    (h1 : client (searchMoviesURL cfg rt query page) = .response StatusOK body)
    (h2 : rt.unmarshalResponse body = .ok response)
    (h3 : rt.unmarshalMovies response.Results = .ok movies) :
    (SearchMovies cfg rt client query page).2 = none ∧
      ∀ (i : Nat) (m : Movie), movies[i]? = some m →
        ((SearchMovies cfg rt client query page).1[i]?).map Movie.PosterPath
            = some (imageURL cfg m.PosterPath) ∧
          ((SearchMovies cfg rt client query page).1[i]?).map Movie.BackdropPath
            = some m.BackdropPath := by
  simp only [SearchMovies, h1, h2, h3, ne_eq, not_true_eq_false, if_false, true_and]
  intro i m hm
  by_cases hp : m.PosterPath = "" <;>
    simp [List.getElem?_map, hm, imageURL, hp]

theorem SearchTVShows_paths (cfg : Config) (rt : Runtime) (client : Client) (query : String)
    (page : Int) (body : String) (response : TMDBResponse) (shows : List TVShow)
    (h1 : client (searchTVShowsURL cfg rt query page) = .response StatusOK body)
    (h2 : rt.unmarshalResponse body = .ok response)
    (h3 : rt.unmarshalShows response.Results = .ok shows) :
    (SearchTVShows cfg rt client query page).2 = none ∧
      ∀ (i : Nat) (s : TVShow), shows[i]? = some s →
        ((SearchTVShows cfg rt client query page).1[i]?).map TVShow.PosterPath
            = some (imageURL cfg s.PosterPath) ∧
          ((SearchTVShows cfg rt client query page).1[i]?).map TVShow.BackdropPath
            = some s.BackdropPath := by
  simp only [SearchTVShows, h1, h2, h3, ne_eq, not_true_eq_false, if_false, true_and]
  intro i s hs
  by_cases hp : s.PosterPath = "" <;>
    simp [List.getElem?_map, hs, imageURL, hp]

/-- C11, the code at the failing input: for a search response that decodes to
the page `twoMovies` (likewise `twoShows`), whose second entry has the backdrop
path `"/b.jpg"`, `SearchMovies` (likewise `SearchTVShows`) returns that entry
with the backdrop path `"/b.jpg"`, still relative, while it rewrites the
poster path of the first entry; `DiscoverMovies` on the same decoded page
returns the backdrop path `"https://img/b.jpg"`. -/
theorem C11_search_backdrop_left_relative :
    SearchMovies (demoConfig "en-US") (pageRuntime twoMovies twoShows) (constClient "page") "q" 1
        = ([ { mkMovie 1 "a" with PosterPath := "https://img/p.jpg" },
             { mkMovie 2 "b" with BackdropPath := "/b.jpg", TrailerURL := "kept" } ], none) ∧
      SearchTVShows (demoConfig "en-US") (pageRuntime twoMovies twoShows) (constClient "page")
          "q" 1
        = ([ { mkShow 1 "a" with PosterPath := "https://img/p.jpg" },
             { mkShow 2 "b" with BackdropPath := "/b.jpg", TrailerURL := "kept" } ], none) ∧
      ((SearchMovies (demoConfig "en-US") (pageRuntime twoMovies twoShows) (constClient "page")
          "q" 1).1[1]?).map Movie.BackdropPath = some "/b.jpg" ∧
      ((SearchTVShows (demoConfig "en-US") (pageRuntime twoMovies twoShows) (constClient "page")
          "q" 1).1[1]?).map TVShow.BackdropPath = some "/b.jpg" ∧
      (demoConfig "en-US").TMDB.ImageBaseURL ++ "/b.jpg" = "https://img/b.jpg" ∧
      (DiscoverMovies (demoConfig "en-US") (pageRuntime twoMovies twoShows) (constClient "page")
          demoClients 1 (sequential 2)).map (fun r => (r.1[1]?).map Movie.BackdropPath)
        = some (some "https://img/b.jpg") := by
  decide

end TMDB
